import Mathlib

/-!
Verification of the dungeon-escape map/state engine (`src/logic.cpp`).

The grid is embedded as a total function from integer coordinates to tiles;
the C++ code stores it as a dynamically allocated `char**`, and every cell
the routines under verification read or write is addressed by `int` row and
column indices.  The tile and status character constants, the `Player`
struct, and the movement key constants live in `logic.h`, which is not part
of the sources; they are modelled from the specification as an inductive
tile type, an inductive status type and a record.
-/

/-- Tile kinds.  Modelled from the spec: `logic.h` (absent from the sources)
defines the `TILE_*` character constants; the spec's tile table enumerates
Open, Pillar, Treasure, Amulet, Monster, Door, Exit and the player marker as
distinct one-character tokens, so the tiles form an eight-element enumeration
with decidable equality.  `TILE_PLAYER` is the player-marker tile; the
literal `'o'` that `resizeMap` compares against is this constant. -/
inductive Tile where
  | Open
  | Pillar
  | Treasure
  | Amulet
  | Monster
  | Door
  | Exit
  | PlayerMarker
deriving DecidableEq, Repr

def TILE_OPEN : Tile := Tile.Open

def TILE_PILLAR : Tile := Tile.Pillar

def TILE_TREASURE : Tile := Tile.Treasure

def TILE_AMULET : Tile := Tile.Amulet

def TILE_MONSTER : Tile := Tile.Monster

def TILE_DOOR : Tile := Tile.Door

def TILE_EXIT : Tile := Tile.Exit

def TILE_PLAYER : Tile := Tile.PlayerMarker

/-- The 2D map: a total function from `(row, col)` integer coordinates to
tiles.  The C++ `char**` array only materialises the cells with
`0 ≤ row < maxRow` and `0 ≤ col < maxCol`; coordinates outside that range do
not exist in the array, and the embedding maps them to `Tile.Open` (the
value `createMap` gives fresh cells).  All routines below only read and
write in-range cells when invoked with in-range player coordinates. -/
def Grid : Type := Int → Int → Tile

/-- Writing one cell of the map: `map[r][c] = t`. -/
def setCell (g : Grid) (r c : Int) (t : Tile) : Grid :=
  fun i j => if i = r ∧ j = c then t else g i j

/-- `(i, j)` addresses a cell that exists in a `maxRow × maxCol` map. -/
def inBounds (maxRow maxCol i j : Int) : Prop :=
  0 ≤ i ∧ i < maxRow ∧ 0 ≤ j ∧ j < maxCol

instance (maxRow maxCol i j : Int) : Decidable (inBounds maxRow maxCol i j) := by
  unfold inBounds; infer_instance

/-- `createMap` (`logic.cpp` lines 81–95): allocates the `maxRow` rows of
`maxCol` cells and sets every allocated cell to `TILE_OPEN`.  The function
body has no dimension check and no `return nullptr`; in the embedding it is
total, and the `maxRow`/`maxCol` arguments only bound which cells exist
(a non-positive dimension allocates a map with no cells). -/
def createMap (maxRow maxCol : Int) : Grid :=
  fun _ _ => TILE_OPEN

/-- Player state.  Modelled from the spec: the `Player` struct lives in
`logic.h` (absent from the sources); per the spec it carries the current
`row`, `col` and the non-negative `treasureCount` (named `treasure` in the
code, which writes `player.row`, `player.col` and `player.treasure`). -/
structure Player where
  row : Int
  col : Int
  treasure : Int
deriving DecidableEq, Repr

/-- `loadLevel` (`logic.cpp` lines 19–45) for a readable, already-opened
source: the stream yields `maxRow`, `maxCol`, `player.row`, `player.col` and
then one tile token per in-range cell in row-major order (`tok i j` is the
token read for cell `(i, j)`).  The map starts as `createMap maxRow maxCol`
and the nested loop overwrites each in-range cell with its token, forcing
the cell to `TILE_PLAYER` exactly when `(i, j)` equals the declared player
coordinates.  Modelled from the spec: the returned player's `treasure` is 0
— the `Player` record initialiser in the absent `logic.h` sets
`treasureCount = 0` and `loadLevel` itself writes only `row` and `col`. -/
def loadLevel (maxRow maxCol prow pcol : Int) (tok : Int → Int → Tile) :
    Grid × Player :=
  (fun i j =>
    if inBounds maxRow maxCol i j then
      if i = prow ∧ j = pcol then TILE_PLAYER else tok i j
    else createMap maxRow maxCol i j,
   { row := prow, col := pcol, treasure := 0 })

/-- Move outcomes.  Modelled from the spec: the `STATUS_*` constants are
defined in the absent `logic.h`; the spec's Move Outcome enumeration is
Stayed, Moved, CollectedTreasure, CollectedAmulet, ExitedThroughDoor,
EscapedDungeon. -/
inductive Status where
  | stay
  | move
  | treasure
  | amulet
  | leave
  | escape
deriving DecidableEq, Repr

def STATUS_STAY : Status := Status.stay

def STATUS_MOVE : Status := Status.move

def STATUS_TREASURE : Status := Status.treasure

def STATUS_AMULET : Status := Status.amulet

def STATUS_LEAVE : Status := Status.leave

def STATUS_ESCAPE : Status := Status.escape

/-- The two-cell map update every successful relocation performs
(`map[player.row][player.col] = TILE_OPEN; map[nextRow][nextCol] = TILE_PLAYER`). -/
def relocGrid (g : Grid) (p : Player) (nextRow nextCol : Int) : Grid :=
  setCell (setCell g p.row p.col TILE_OPEN) nextRow nextCol TILE_PLAYER

/-- `doPlayerMove` (`logic.cpp` lines 178–253).  Takes the candidate cell
`(nextRow, nextCol)` (the caller derives it from the player's position and
`getDirection`) and returns the updated map, the updated player and the
status the C++ function returns.  The local reassignments of
`nextRow`/`nextCol` in the Stayed branches have no observable effect (the
parameters are passed by value) and are dropped. -/
def doPlayerMove (g : Grid) (maxRow maxCol : Int) (p : Player)
    (nextRow nextCol : Int) : Grid × Player × Status :=
  if nextRow < 0 ∨ nextRow ≥ maxRow then
    (g, p, STATUS_STAY)
  else if nextCol < 0 ∨ nextCol ≥ maxCol then
    (g, p, STATUS_STAY)
  else if g nextRow nextCol = TILE_PILLAR ∨ g nextRow nextCol = TILE_MONSTER then
    (g, p, STATUS_STAY)
  else if g nextRow nextCol = TILE_TREASURE then
    (relocGrid g p nextRow nextCol,
     { row := nextRow, col := nextCol, treasure := p.treasure + 1 },
     STATUS_TREASURE)
  else if g nextRow nextCol = TILE_AMULET then
    (relocGrid g p nextRow nextCol,
     { row := nextRow, col := nextCol, treasure := p.treasure },
     STATUS_AMULET)
  else if g nextRow nextCol = TILE_DOOR then
    (relocGrid g p nextRow nextCol,
     { row := nextRow, col := nextCol, treasure := p.treasure },
     STATUS_LEAVE)
  else if g nextRow nextCol = TILE_EXIT then
    if p.treasure ≥ 1 then
      (relocGrid g p nextRow nextCol,
       { row := nextRow, col := nextCol, treasure := p.treasure },
       STATUS_ESCAPE)
    else
      (g, p, STATUS_STAY)
  else
    (relocGrid g p nextRow nextCol,
     { row := nextRow, col := nextCol, treasure := p.treasure },
     STATUS_MOVE)

/-- First ray loop of `doMonsterAttack` (`logic.cpp` lines 272–286, the
loop labelled "CHECKS THE TILE ABOVE"): `for (i = player.col - 1; i >= 0; --i)`
over row `r`.  The argument is `i + 1`, so `scanColDec r g n` scans columns
`n-1, n-2, …, 0`; the top-level call passes `n = player.col`.  The loop
breaks at the first `TILE_PILLAR`; at a `TILE_MONSTER` it copies the monster
to column `i+1` and writes back into column `i` the previous content of
column `i+1` (`TILE_OPEN` instead when that content was `TILE_PLAYER`), and
the scan continues with the next smaller column. -/
def scanColDec (r : Int) : Grid → Nat → Grid
  | g, 0 => g
  | g, i + 1 =>
    if g r i = TILE_PILLAR then g
    else if g r i = TILE_MONSTER then
      scanColDec r
        (setCell (setCell g r ((i : Int) + 1) TILE_MONSTER) r i
          (if g r ((i : Int) + 1) = TILE_PLAYER then TILE_OPEN
           else g r ((i : Int) + 1)))
        i
    else scanColDec r g i

/-- Second ray loop of `doMonsterAttack` (`logic.cpp` lines 288–302):
`for (i = player.col + 1; i < maxCol; ++i)` over row `r`.  `fuel` counts the
remaining iterations, `maxCol - i` at entry; a monster at column `i` is
copied to column `i - 1` and the vacated cell receives the previous content
of column `i - 1` (`TILE_OPEN` instead when that content was
`TILE_PLAYER`). -/
def scanColInc (r : Int) : Grid → Int → Nat → Grid
  | g, _, 0 => g
  | g, i, fuel + 1 =>
    if g r i = TILE_PILLAR then g
    else if g r i = TILE_MONSTER then
      scanColInc r
        (setCell (setCell g r (i - 1) TILE_MONSTER) r i
          (if g r (i - 1) = TILE_PLAYER then TILE_OPEN else g r (i - 1)))
        (i + 1) fuel
    else scanColInc r g (i + 1) fuel

/-- Third ray loop of `doMonsterAttack` (`logic.cpp` lines 304–318):
`for (i = player.row - 1; i >= 0; --i)` over column `c`; the mirror of
`scanColDec` along the row axis (`scanRowDec c g n` scans rows
`n-1, …, 0`, with `n = player.row` at the top-level call). -/
def scanRowDec (c : Int) : Grid → Nat → Grid
  | g, 0 => g
  | g, i + 1 =>
    if g i c = TILE_PILLAR then g
    else if g i c = TILE_MONSTER then
      scanRowDec c
        (setCell (setCell g ((i : Int) + 1) c TILE_MONSTER) i c
          (if g ((i : Int) + 1) c = TILE_PLAYER then TILE_OPEN
           else g ((i : Int) + 1) c))
        i
    else scanRowDec c g i

/-- Fourth ray loop of `doMonsterAttack` (`logic.cpp` lines 320–334):
`for (i = player.row + 1; i < maxRow; i++)` over column `c`; the mirror of
`scanColInc` along the row axis. -/
def scanRowInc (c : Int) : Grid → Int → Nat → Grid
  | g, _, 0 => g
  | g, i, fuel + 1 =>
    if g i c = TILE_PILLAR then g
    else if g i c = TILE_MONSTER then
      scanRowInc c
        (setCell (setCell g (i - 1) c TILE_MONSTER) i c
          (if g (i - 1) c = TILE_PLAYER then TILE_OPEN else g (i - 1) c))
        (i + 1) fuel
    else scanRowInc c g (i + 1) fuel

/-- `doMonsterAttack` (`logic.cpp` lines 269–341): runs the four ray loops
in source order and then reports capture exactly when the player's own cell
holds `TILE_MONSTER`. -/
def doMonsterAttack (g : Grid) (maxRow maxCol : Int) (p : Player) :
    Grid × Bool :=
  let g1 := scanColDec p.row g p.col.toNat
  let g2 := scanColInc p.row g1 (p.col + 1) (maxCol - (p.col + 1)).toNat
  let g3 := scanRowDec p.col g2 p.row.toNat
  let g4 := scanRowInc p.col g3 (p.row + 1) (maxRow - (p.row + 1)).toNat
  (g4, if g4 p.row p.col = TILE_MONSTER then true else false)

/-- The map component of `doMonsterAttack`: the four ray loops composed in
source order (a definitional restatement used to phrase the ray lemmas). -/
def attackGrid (g : Grid) (maxRow maxCol : Int) (p : Player) : Grid :=
  scanRowInc p.col
    (scanRowDec p.col
      (scanColInc p.row (scanColDec p.row g p.col.toNat)
        (p.col + 1) (maxCol - (p.col + 1)).toNat)
      p.row.toNat)
    (p.row + 1) (maxRow - (p.row + 1)).toNat

/-- Inner loop of the player search in `resizeMap` (`logic.cpp` lines
138–143): `for (j = 0; j < maxCol; j++)`, overwriting the accumulator with
`(i, j)` whenever `map[i][j] == 'o'` (the `TILE_PLAYER` constant).  `fuel`
counts the remaining columns, `maxCol - j` at entry. -/
def findInRow (g : Grid) (i : Int) : Int → Int × Int → Nat → Int × Int
  | _, acc, 0 => acc
  | j, acc, fuel + 1 =>
    findInRow g i (j + 1) (if g i j = TILE_PLAYER then (i, j) else acc) fuel

/-- Outer loop of the player search in `resizeMap` (`logic.cpp` lines
137–144): `for (i = 0; i < maxRow; i++)`, running `findInRow` on each row in
order.  `fuelRows` counts the remaining rows, `maxRow - i` at entry. -/
def findPlayer (g : Grid) (maxCol : Int) : Int → Int × Int → Nat → Int × Int
  | _, acc, 0 => acc
  | i, acc, fuelRows + 1 =>
    findPlayer g maxCol (i + 1) (findInRow g i 0 acc maxCol.toNat) fuelRows

/-- `resizeMap` (`logic.cpp` lines 124–160): locates the (last) cell holding
`'o'` (`TILE_PLAYER`), starting the search accumulator at `(0, 0)`; resets
that cell of the old map to `TILE_OPEN`; fills every cell `(i, j)` of the
doubled map with `map[i % maxRow][j % maxCol]`; writes `TILE_PLAYER` back at
the found coordinates; and returns the new map together with the doubled
dimensions. -/
def resizeMap (g : Grid) (maxRow maxCol : Int) : Grid × Int × Int :=
  let cur := findPlayer g maxCol 0 (0, 0) maxRow.toNat
  let cleared := setCell g cur.1 cur.2 TILE_OPEN
  let tiled : Grid := fun i j => cleared (i % maxRow) (j % maxCol)
  (setCell tiled cur.1 cur.2 TILE_PLAYER, 2 * maxRow, 2 * maxCol)


/-! Concrete levels used to exercise the theorems on closed inputs. -/

/-- A 1 × 3 level: two monsters at `(0,0)` and `(0,1)`, player at `(0,2)`. -/
def gridTwoMonsters : Grid := fun i j =>
  if i = 0 ∧ j = 0 then TILE_MONSTER
  else if i = 0 ∧ j = 1 then TILE_MONSTER
  else if i = 0 ∧ j = 2 then TILE_PLAYER
  else TILE_OPEN

/-- A 3 × 1 level: monsters at `(0,0)` and `(1,0)`, player at `(2,0)`. -/
def gridTwoMonstersCol : Grid := fun i j =>
  if i = 0 ∧ j = 0 then TILE_MONSTER
  else if i = 1 ∧ j = 0 then TILE_MONSTER
  else if i = 2 ∧ j = 0 then TILE_PLAYER
  else TILE_OPEN

/-- A 1 × 3 level: monster at `(0,0)`, open gap, player at `(0,2)`. -/
def gridMonsterGap : Grid := fun i j =>
  if i = 0 ∧ j = 0 then TILE_MONSTER
  else if i = 0 ∧ j = 2 then TILE_PLAYER
  else TILE_OPEN

/-- A 1 × 3 level: monster at `(0,0)`, pillar at `(0,1)`, player at `(0,2)`. -/
def gridMonsterPillar : Grid := fun i j =>
  if i = 0 ∧ j = 0 then TILE_MONSTER
  else if i = 0 ∧ j = 1 then TILE_PILLAR
  else if i = 0 ∧ j = 2 then TILE_PLAYER
  else TILE_OPEN

/-- A 1 × 2 level: monster at `(0,0)` directly beside the player at `(0,1)`. -/
def gridMonsterAdjacent : Grid := fun i j =>
  if i = 0 ∧ j = 0 then TILE_MONSTER
  else if i = 0 ∧ j = 1 then TILE_PLAYER
  else TILE_OPEN

/-- A 3 × 3 level: player at `(1,1)`, treasure at `(2,1)`, rest open. -/
def gridSample : Grid := fun i j =>
  if i = 1 ∧ j = 1 then TILE_PLAYER
  else if i = 2 ∧ j = 1 then TILE_TREASURE
  else TILE_OPEN

/-- A 3 × 3 level: player at `(1,1)`, exit at `(1,2)`, rest open. -/
def gridExitSample : Grid := fun i j =>
  if i = 1 ∧ j = 1 then TILE_PLAYER
  else if i = 1 ∧ j = 2 then TILE_EXIT
  else TILE_OPEN


/-! Cell-update evaluation helpers. -/

theorem setCell_eval_eq (g : Grid) (r c : Int) (t : Tile) : setCell g r c t r c = t := by
  simp [setCell]

theorem setCell_eval_ne (g : Grid) (r c : Int) (t : Tile) (x y : Int)
    (h : ¬(x = r ∧ y = c)) : setCell g r c t x y = g x y :=
  if_neg h

/-! Lemmas about the first ray loop (`scanColDec`). -/

/-- `scanColDec r g n` only writes cells on row `r` with column in `[0, n]`. -/
theorem scanColDec_frame (r : Int) :
    ∀ (n : Nat) (g : Grid) (x y : Int),
      (x ≠ r ∨ (n : Int) < y ∨ y < 0) → scanColDec r g n x y = g x y := by
  intro n
  induction n with
  | zero => intro g x y h; rfl
  | succ i ih =>
    intro g x y h
    have hgen : x ≠ r ∨ (i : Int) < y ∨ y < 0 := by
      rcases h with h | h | h
      · exact Or.inl h
      · refine Or.inr (Or.inl ?_); push_cast at h; omega
      · exact Or.inr (Or.inr h)
    simp only [scanColDec]
    by_cases h1 : g r (i : Int) = TILE_PILLAR
    · rw [if_pos h1]
    · rw [if_neg h1]
      by_cases h2 : g r (i : Int) = TILE_MONSTER
      · rw [if_pos h2, ih _ x y hgen]
        rw [setCell_eval_ne _ _ _ _ x y ?_, setCell_eval_ne _ _ _ _ x y ?_]
        · rintro ⟨rfl, rfl⟩
          rcases h with h | h | h
          · exact h rfl
          · push_cast at h; omega
          · omega
        · rintro ⟨rfl, rfl⟩
          rcases h with h | h | h
          · exact h rfl
          · push_cast at h; omega
          · omega
      · rw [if_neg h2]
        exact ih g x y hgen

/-- If row `r` holds no monster in columns `[0, n)`, `scanColDec` is a no-op. -/
theorem scanColDec_id (r : Int) :
    ∀ (n : Nat) (g : Grid),
      (∀ y : Int, 0 ≤ y → y < (n : Int) → g r y ≠ TILE_MONSTER) →
      scanColDec r g n = g := by
  intro n
  induction n with
  | zero => intro g _; rfl
  | succ i ih =>
    intro g hnm
    simp only [scanColDec]
    by_cases h1 : g r (i : Int) = TILE_PILLAR
    · rw [if_pos h1]
    · rw [if_neg h1]
      by_cases h2 : g r (i : Int) = TILE_MONSTER
      · exact absurd h2 (hnm i (by omega) (by push_cast; omega))
      · rw [if_neg h2]
        exact ih g fun y hy1 hy2 => hnm y hy1 (by push_cast at hy2 ⊢; omega)

/-- A pillar at column `q` keeps `scanColDec` from touching any cell with
column at most `a < q`. -/
theorem scanColDec_blocked (r a q : Int) (ha : 0 ≤ a) (haq : a < q) :
    ∀ (n : Nat) (g : Grid), q < (n : Int) → g r q = TILE_PILLAR →
      ∀ x y : Int, y ≤ a → scanColDec r g n x y = g x y := by
  intro n
  induction n with
  | zero => intro g hq _ x y _; exfalso; omega
  | succ i ih =>
    intro g hq hp x y hy
    simp only [scanColDec]
    by_cases h1 : g r (i : Int) = TILE_PILLAR
    · rw [if_pos h1]
    · rw [if_neg h1]
      have hqi : q ≠ (i : Int) := fun hc => h1 (hc ▸ hp)
      have hqlt : q < (i : Int) := by push_cast at hq; omega
      by_cases h2 : g r (i : Int) = TILE_MONSTER
      · rw [if_pos h2]
        have hp2 : (setCell (setCell g r ((i : Int) + 1) TILE_MONSTER) r i
            (if g r ((i : Int) + 1) = TILE_PLAYER then TILE_OPEN
             else g r ((i : Int) + 1))) r q = TILE_PILLAR := by
          rw [setCell_eval_ne _ _ _ _ _ _ (fun hc => hqi hc.2),
              setCell_eval_ne _ _ _ _ _ _ (fun hc => by omega)]
          exact hp
        rw [ih _ hqlt hp2 x y hy]
        rw [setCell_eval_ne _ _ _ _ x y (fun hc => by omega),
            setCell_eval_ne _ _ _ _ x y (fun hc => by omega)]
      · rw [if_neg h2]
        exact ih g (by omega) hp x y hy

/-- A monster at column `a` with no pillar strictly between it and the scan
start moves one column toward the player: the scan leaves `TILE_MONSTER` at
column `a + 1`. -/
theorem scanColDec_moves (r a : Int) (ha : 0 ≤ a) :
    ∀ (n : Nat) (g : Grid), a < (n : Int) →
      (∀ y : Int, a < y → y < (n : Int) → g r y ≠ TILE_PILLAR) →
      g r a = TILE_MONSTER →
      scanColDec r g n r (a + 1) = TILE_MONSTER := by
  intro n
  induction n with
  | zero => intro g hlt _ _; exfalso; omega
  | succ i ih =>
    intro g hlt hnp hm
    simp only [scanColDec]
    by_cases hai : a = (i : Int)
    · have hmi : g r (i : Int) = TILE_MONSTER := hai ▸ hm
      rw [if_neg (by rw [hmi]; exact fun hc => by cases hc), if_pos hmi]
      rw [scanColDec_frame r i _ r (a + 1) (Or.inr (Or.inl (by omega)))]
      rw [setCell_eval_ne _ _ _ _ _ _ (fun hc => by omega)]
      have heq : (a + 1) = (i : Int) + 1 := by omega
      rw [heq, setCell_eval_eq]
    · have hlt2 : a < (i : Int) := by push_cast at hlt; omega
      by_cases h1 : g r (i : Int) = TILE_PILLAR
      · exact absurd h1 (hnp i (by omega) (by push_cast; omega))
      · rw [if_neg h1]
        by_cases h2 : g r (i : Int) = TILE_MONSTER
        · rw [if_pos h2]
          refine ih _ hlt2 ?_ ?_
          · intro y hy1 hy2
            rw [setCell_eval_ne _ _ _ _ _ _ (fun hc => by omega),
                setCell_eval_ne _ _ _ _ _ _ (fun hc => by omega)]
            exact hnp y hy1 (by push_cast; omega)
          · rw [setCell_eval_ne _ _ _ _ _ _ (fun hc => hai hc.2),
                setCell_eval_ne _ _ _ _ _ _ (fun hc => by omega)]
            exact hm
        · rw [if_neg h2]
          exact ih g hlt2 (fun y hy1 hy2 => hnp y hy1 (by push_cast at hy2 ⊢; omega)) hm

/-! Lemmas about the second ray loop (`scanColInc`). -/

/-- `scanColInc r g i fuel` only writes cells on row `r` with column in
`[i - 1, i + fuel)`. -/
theorem scanColInc_frame (r : Int) :
    ∀ (fuel : Nat) (g : Grid) (i x y : Int),
      (x ≠ r ∨ y < i - 1 ∨ i + (fuel : Int) ≤ y) → scanColInc r g i fuel x y = g x y := by
  intro fuel
  induction fuel with
  | zero => intro g i x y h; rfl
  | succ f ih =>
    intro g i x y h
    have hgen : x ≠ r ∨ y < (i + 1) - 1 ∨ (i + 1) + (f : Int) ≤ y := by
      rcases h with h | h | h
      · exact Or.inl h
      · exact Or.inr (Or.inl (by omega))
      · refine Or.inr (Or.inr ?_); push_cast at h; omega
    simp only [scanColInc]
    by_cases h1 : g r i = TILE_PILLAR
    · rw [if_pos h1]
    · rw [if_neg h1]
      by_cases h2 : g r i = TILE_MONSTER
      · rw [if_pos h2, ih _ _ x y hgen]
        rw [setCell_eval_ne _ _ _ _ x y ?_, setCell_eval_ne _ _ _ _ x y ?_]
        · rintro ⟨rfl, rfl⟩
          rcases h with h | h | h
          · exact h rfl
          · omega
          · push_cast at h; omega
        · rintro ⟨rfl, rfl⟩
          rcases h with h | h | h
          · exact h rfl
          · omega
          · push_cast at h; omega
      · rw [if_neg h2]
        exact ih g (i + 1) x y hgen

/-- If row `r` holds no monster in columns `[i, i + fuel)`, `scanColInc` is a
no-op. -/
theorem scanColInc_id (r : Int) :
    ∀ (fuel : Nat) (g : Grid) (i : Int),
      (∀ y : Int, i ≤ y → y < i + (fuel : Int) → g r y ≠ TILE_MONSTER) →
      scanColInc r g i fuel = g := by
  intro fuel
  induction fuel with
  | zero => intro g i _; rfl
  | succ f ih =>
    intro g i hnm
    simp only [scanColInc]
    by_cases h1 : g r i = TILE_PILLAR
    · rw [if_pos h1]
    · rw [if_neg h1]
      by_cases h2 : g r i = TILE_MONSTER
      · exact absurd h2 (hnm i le_rfl (by push_cast; omega))
      · rw [if_neg h2]
        exact ih g (i + 1) fun y hy1 hy2 => hnm y (by omega) (by push_cast at hy2 ⊢; omega)

/-- A pillar at column `q` keeps `scanColInc` from touching any cell with
column greater than `q`. -/
theorem scanColInc_blocked (r q : Int) :
    ∀ (fuel : Nat) (g : Grid) (i : Int), i ≤ q → g r q = TILE_PILLAR →
      ∀ x y : Int, q < y → scanColInc r g i fuel x y = g x y := by
  intro fuel
  induction fuel with
  | zero => intro g i _ _ x y _; rfl
  | succ f ih =>
    intro g i hiq hp x y hy
    simp only [scanColInc]
    by_cases h1 : g r i = TILE_PILLAR
    · rw [if_pos h1]
    · rw [if_neg h1]
      have hqi : q ≠ i := fun hc => h1 (hc ▸ hp)
      have hilt : i < q := by omega
      by_cases h2 : g r i = TILE_MONSTER
      · rw [if_pos h2]
        have hp2 : (setCell (setCell g r (i - 1) TILE_MONSTER) r i
            (if g r (i - 1) = TILE_PLAYER then TILE_OPEN else g r (i - 1)))
            r q = TILE_PILLAR := by
          rw [setCell_eval_ne _ _ _ _ _ _ (fun hc => by omega),
              setCell_eval_ne _ _ _ _ _ _ (fun hc => by omega)]
          exact hp
        rw [ih _ (i + 1) (by omega) hp2 x y hy]
        rw [setCell_eval_ne _ _ _ _ x y (fun hc => by omega),
            setCell_eval_ne _ _ _ _ x y (fun hc => by omega)]
      · rw [if_neg h2]
        exact ih g (i + 1) (by omega) hp x y hy

/-- A monster at column `b` with no pillar between the scan start and it
moves one column toward the player: the scan leaves `TILE_MONSTER` at column
`b - 1`. -/
theorem scanColInc_moves (r b : Int) :
    ∀ (fuel : Nat) (g : Grid) (i : Int), i ≤ b → b < i + (fuel : Int) →
      (∀ y : Int, i ≤ y → y < b → g r y ≠ TILE_PILLAR) →
      g r b = TILE_MONSTER →
      scanColInc r g i fuel r (b - 1) = TILE_MONSTER := by
  intro fuel
  induction fuel with
  | zero => intro g i h1 h2 _ _; exfalso; omega
  | succ f ih =>
    intro g i hib hlt hnp hm
    simp only [scanColInc]
    by_cases hbi : b = i
    · have hmi : g r i = TILE_MONSTER := hbi ▸ hm
      rw [if_neg (by rw [hmi]; exact fun hc => by cases hc), if_pos hmi]
      rw [scanColInc_frame r f _ (i + 1) r (b - 1) (Or.inr (Or.inl (by omega)))]
      rw [setCell_eval_ne _ _ _ _ _ _ (fun hc => by omega)]
      have heq : (b - 1) = i - 1 := by omega
      rw [heq, setCell_eval_eq]
    · have hilt : i < b := by omega
      by_cases h1 : g r i = TILE_PILLAR
      · exact absurd h1 (hnp i le_rfl hilt)
      · rw [if_neg h1]
        by_cases h2 : g r i = TILE_MONSTER
        · rw [if_pos h2]
          refine ih _ (i + 1) (by omega) (by push_cast at hlt ⊢; omega) ?_ ?_
          · intro y hy1 hy2
            rw [setCell_eval_ne _ _ _ _ _ _ (fun hc => by omega),
                setCell_eval_ne _ _ _ _ _ _ (fun hc => by omega)]
            exact hnp y (by omega) hy2
          · rw [setCell_eval_ne _ _ _ _ _ _ (fun hc => hbi hc.2),
                setCell_eval_ne _ _ _ _ _ _ (fun hc => by omega)]
            exact hm
        · rw [if_neg h2]
          exact ih g (i + 1) (by omega) (by push_cast at hlt ⊢; omega)
            (fun y hy1 hy2 => hnp y (by omega) hy2) hm

/-- The cell just before the scan start (`i - 1`, the player's own cell at
the top-level call) can only be overwritten with `TILE_MONSTER`, so a
monster standing there survives the scan. -/
theorem scanColInc_keep (r : Int) (fuel : Nat) (g : Grid) (i : Int)
    (hm : g r (i - 1) = TILE_MONSTER) :
    scanColInc r g i fuel r (i - 1) = TILE_MONSTER := by
  cases fuel with
  | zero => exact hm
  | succ f =>
    simp only [scanColInc]
    by_cases h1 : g r i = TILE_PILLAR
    · rw [if_pos h1]; exact hm
    · rw [if_neg h1]
      by_cases h2 : g r i = TILE_MONSTER
      · rw [if_pos h2]
        rw [scanColInc_frame r f _ (i + 1) r (i - 1) (Or.inr (Or.inl (by omega)))]
        rw [setCell_eval_ne _ _ _ _ _ _ (fun hc => by omega), setCell_eval_eq]
      · rw [if_neg h2]
        rw [scanColInc_frame r f _ (i + 1) r (i - 1) (Or.inr (Or.inl (by omega)))]
        exact hm

/-! Lemmas about the third ray loop (`scanRowDec`); mirrors of the
`scanColDec` lemmas along the other axis. -/

/-- `scanRowDec c g n` only writes cells on column `c` with row in `[0, n]`. -/
theorem scanRowDec_frame (c : Int) :
    ∀ (n : Nat) (g : Grid) (x y : Int),
      (y ≠ c ∨ (n : Int) < x ∨ x < 0) → scanRowDec c g n x y = g x y := by
  intro n
  induction n with
  | zero => intro g x y h; rfl
  | succ i ih =>
    intro g x y h
    have hgen : y ≠ c ∨ (i : Int) < x ∨ x < 0 := by
      rcases h with h | h | h
      · exact Or.inl h
      · refine Or.inr (Or.inl ?_); push_cast at h; omega
      · exact Or.inr (Or.inr h)
    simp only [scanRowDec]
    by_cases h1 : g (i : Int) c = TILE_PILLAR
    · rw [if_pos h1]
    · rw [if_neg h1]
      by_cases h2 : g (i : Int) c = TILE_MONSTER
      · rw [if_pos h2, ih _ x y hgen]
        rw [setCell_eval_ne _ _ _ _ x y ?_, setCell_eval_ne _ _ _ _ x y ?_]
        · rintro ⟨rfl, rfl⟩
          rcases h with h | h | h
          · exact h rfl
          · push_cast at h; omega
          · omega
        · rintro ⟨rfl, rfl⟩
          rcases h with h | h | h
          · exact h rfl
          · push_cast at h; omega
          · omega
      · rw [if_neg h2]
        exact ih g x y hgen

/-- If column `c` holds no monster in rows `[0, n)`, `scanRowDec` is a no-op. -/
theorem scanRowDec_id (c : Int) :
    ∀ (n : Nat) (g : Grid),
      (∀ x : Int, 0 ≤ x → x < (n : Int) → g x c ≠ TILE_MONSTER) →
      scanRowDec c g n = g := by
  intro n
  induction n with
  | zero => intro g _; rfl
  | succ i ih =>
    intro g hnm
    simp only [scanRowDec]
    by_cases h1 : g (i : Int) c = TILE_PILLAR
    · rw [if_pos h1]
    · rw [if_neg h1]
      by_cases h2 : g (i : Int) c = TILE_MONSTER
      · exact absurd h2 (hnm i (by omega) (by push_cast; omega))
      · rw [if_neg h2]
        exact ih g fun x hx1 hx2 => hnm x hx1 (by push_cast at hx2 ⊢; omega)

/-- A pillar at row `q` keeps `scanRowDec` from touching any cell with row at
most `a < q`. -/
theorem scanRowDec_blocked (c a q : Int) (ha : 0 ≤ a) (haq : a < q) :
    ∀ (n : Nat) (g : Grid), q < (n : Int) → g q c = TILE_PILLAR →
      ∀ x y : Int, x ≤ a → scanRowDec c g n x y = g x y := by
  intro n
  induction n with
  | zero => intro g hq _ x y _; exfalso; omega
  | succ i ih =>
    intro g hq hp x y hx
    simp only [scanRowDec]
    by_cases h1 : g (i : Int) c = TILE_PILLAR
    · rw [if_pos h1]
    · rw [if_neg h1]
      have hqi : q ≠ (i : Int) := fun hc => h1 (hc ▸ hp)
      have hqlt : q < (i : Int) := by push_cast at hq; omega
      by_cases h2 : g (i : Int) c = TILE_MONSTER
      · rw [if_pos h2]
        have hp2 : (setCell (setCell g ((i : Int) + 1) c TILE_MONSTER) i c
            (if g ((i : Int) + 1) c = TILE_PLAYER then TILE_OPEN
             else g ((i : Int) + 1) c)) q c = TILE_PILLAR := by
          rw [setCell_eval_ne _ _ _ _ _ _ (fun hc => hqi hc.1),
              setCell_eval_ne _ _ _ _ _ _ (fun hc => by omega)]
          exact hp
        rw [ih _ hqlt hp2 x y hx]
        rw [setCell_eval_ne _ _ _ _ x y (fun hc => by omega),
            setCell_eval_ne _ _ _ _ x y (fun hc => by omega)]
      · rw [if_neg h2]
        exact ih g (by omega) hp x y hx

/-- A monster at row `a` with no pillar strictly between it and the scan
start moves one row toward the player: the scan leaves `TILE_MONSTER` at row
`a + 1`. -/
theorem scanRowDec_moves (c a : Int) (ha : 0 ≤ a) :
    ∀ (n : Nat) (g : Grid), a < (n : Int) →
      (∀ x : Int, a < x → x < (n : Int) → g x c ≠ TILE_PILLAR) →
      g a c = TILE_MONSTER →
      scanRowDec c g n (a + 1) c = TILE_MONSTER := by
  intro n
  induction n with
  | zero => intro g hlt _ _; exfalso; omega
  | succ i ih =>
    intro g hlt hnp hm
    simp only [scanRowDec]
    by_cases hai : a = (i : Int)
    · have hmi : g (i : Int) c = TILE_MONSTER := hai ▸ hm
      rw [if_neg (by rw [hmi]; exact fun hc => by cases hc), if_pos hmi]
      rw [scanRowDec_frame c i _ (a + 1) c (Or.inr (Or.inl (by omega)))]
      rw [setCell_eval_ne _ _ _ _ _ _ (fun hc => by omega)]
      have heq : (a + 1) = (i : Int) + 1 := by omega
      rw [heq, setCell_eval_eq]
    · have hlt2 : a < (i : Int) := by push_cast at hlt; omega
      by_cases h1 : g (i : Int) c = TILE_PILLAR
      · exact absurd h1 (hnp i (by omega) (by push_cast; omega))
      · rw [if_neg h1]
        by_cases h2 : g (i : Int) c = TILE_MONSTER
        · rw [if_pos h2]
          refine ih _ hlt2 ?_ ?_
          · intro x hx1 hx2
            rw [setCell_eval_ne _ _ _ _ _ _ (fun hc => by omega),
                setCell_eval_ne _ _ _ _ _ _ (fun hc => by omega)]
            exact hnp x hx1 (by push_cast; omega)
          · rw [setCell_eval_ne _ _ _ _ _ _ (fun hc => hai hc.1),
                setCell_eval_ne _ _ _ _ _ _ (fun hc => by omega)]
            exact hm
        · rw [if_neg h2]
          exact ih g hlt2 (fun x hx1 hx2 => hnp x hx1 (by push_cast at hx2 ⊢; omega)) hm

/-- The row just past the scan start (`n`, the player's own row at the
top-level call) can only be overwritten with `TILE_MONSTER` on column `c`,
so a monster standing there survives the scan. -/
theorem scanRowDec_keep (c : Int) (n : Nat) (g : Grid)
    (hm : g (n : Int) c = TILE_MONSTER) :
    scanRowDec c g n (n : Int) c = TILE_MONSTER := by
  cases n with
  | zero => exact hm
  | succ i =>
    simp only [scanRowDec]
    by_cases h1 : g (i : Int) c = TILE_PILLAR
    · rw [if_pos h1]; exact hm
    · rw [if_neg h1]
      by_cases h2 : g (i : Int) c = TILE_MONSTER
      · rw [if_pos h2]
        rw [scanRowDec_frame c i _ _ c (Or.inr (Or.inl (by push_cast; omega)))]
        have heq : ((i + 1 : Nat) : Int) = (i : Int) + 1 := by push_cast; omega
        rw [heq, setCell_eval_ne _ _ _ _ _ _ (fun hc => by omega), setCell_eval_eq]
      · rw [if_neg h2]
        rw [scanRowDec_frame c i _ _ c (Or.inr (Or.inl (by push_cast; omega)))]
        exact hm

/-! Lemmas about the fourth ray loop (`scanRowInc`); mirrors of the
`scanColInc` lemmas along the other axis. -/

/-- `scanRowInc c g i fuel` only writes cells on column `c` with row in
`[i - 1, i + fuel)`. -/
theorem scanRowInc_frame (c : Int) :
    ∀ (fuel : Nat) (g : Grid) (i x y : Int),
      (y ≠ c ∨ x < i - 1 ∨ i + (fuel : Int) ≤ x) → scanRowInc c g i fuel x y = g x y := by
  intro fuel
  induction fuel with
  | zero => intro g i x y h; rfl
  | succ f ih =>
    intro g i x y h
    have hgen : y ≠ c ∨ x < (i + 1) - 1 ∨ (i + 1) + (f : Int) ≤ x := by
      rcases h with h | h | h
      · exact Or.inl h
      · exact Or.inr (Or.inl (by omega))
      · refine Or.inr (Or.inr ?_); push_cast at h; omega
    simp only [scanRowInc]
    by_cases h1 : g i c = TILE_PILLAR
    · rw [if_pos h1]
    · rw [if_neg h1]
      by_cases h2 : g i c = TILE_MONSTER
      · rw [if_pos h2, ih _ _ x y hgen]
        rw [setCell_eval_ne _ _ _ _ x y ?_, setCell_eval_ne _ _ _ _ x y ?_]
        · rintro ⟨rfl, rfl⟩
          rcases h with h | h | h
          · exact h rfl
          · omega
          · push_cast at h; omega
        · rintro ⟨rfl, rfl⟩
          rcases h with h | h | h
          · exact h rfl
          · omega
          · push_cast at h; omega
      · rw [if_neg h2]
        exact ih g (i + 1) x y hgen

/-- If column `c` holds no monster in rows `[i, i + fuel)`, `scanRowInc` is a
no-op. -/
theorem scanRowInc_id (c : Int) :
    ∀ (fuel : Nat) (g : Grid) (i : Int),
      (∀ x : Int, i ≤ x → x < i + (fuel : Int) → g x c ≠ TILE_MONSTER) →
      scanRowInc c g i fuel = g := by
  intro fuel
  induction fuel with
  | zero => intro g i _; rfl
  | succ f ih =>
    intro g i hnm
    simp only [scanRowInc]
    by_cases h1 : g i c = TILE_PILLAR
    · rw [if_pos h1]
    · rw [if_neg h1]
      by_cases h2 : g i c = TILE_MONSTER
      · exact absurd h2 (hnm i le_rfl (by push_cast; omega))
      · rw [if_neg h2]
        exact ih g (i + 1) fun x hx1 hx2 => hnm x (by omega) (by push_cast at hx2 ⊢; omega)

/-- A pillar at row `q` keeps `scanRowInc` from touching any cell with row
greater than `q`. -/
theorem scanRowInc_blocked (c q : Int) :
    ∀ (fuel : Nat) (g : Grid) (i : Int), i ≤ q → g q c = TILE_PILLAR →
      ∀ x y : Int, q < x → scanRowInc c g i fuel x y = g x y := by
  intro fuel
  induction fuel with
  | zero => intro g i _ _ x y _; rfl
  | succ f ih =>
    intro g i hiq hp x y hx
    simp only [scanRowInc]
    by_cases h1 : g i c = TILE_PILLAR
    · rw [if_pos h1]
    · rw [if_neg h1]
      have hqi : q ≠ i := fun hc => h1 (hc ▸ hp)
      have hilt : i < q := by omega
      by_cases h2 : g i c = TILE_MONSTER
      · rw [if_pos h2]
        have hp2 : (setCell (setCell g (i - 1) c TILE_MONSTER) i c
            (if g (i - 1) c = TILE_PLAYER then TILE_OPEN else g (i - 1) c))
            q c = TILE_PILLAR := by
          rw [setCell_eval_ne _ _ _ _ _ _ (fun hc => by omega),
              setCell_eval_ne _ _ _ _ _ _ (fun hc => by omega)]
          exact hp
        rw [ih _ (i + 1) (by omega) hp2 x y hx]
        rw [setCell_eval_ne _ _ _ _ x y (fun hc => by omega),
            setCell_eval_ne _ _ _ _ x y (fun hc => by omega)]
      · rw [if_neg h2]
        exact ih g (i + 1) (by omega) hp x y hx

/-- A monster at row `b` with no pillar between the scan start and it moves
one row toward the player: the scan leaves `TILE_MONSTER` at row `b - 1`. -/
theorem scanRowInc_moves (c b : Int) :
    ∀ (fuel : Nat) (g : Grid) (i : Int), i ≤ b → b < i + (fuel : Int) →
      (∀ x : Int, i ≤ x → x < b → g x c ≠ TILE_PILLAR) →
      g b c = TILE_MONSTER →
      scanRowInc c g i fuel (b - 1) c = TILE_MONSTER := by
  intro fuel
  induction fuel with
  | zero => intro g i h1 h2 _ _; exfalso; omega
  | succ f ih =>
    intro g i hib hlt hnp hm
    simp only [scanRowInc]
    by_cases hbi : b = i
    · have hmi : g i c = TILE_MONSTER := hbi ▸ hm
      rw [if_neg (by rw [hmi]; exact fun hc => by cases hc), if_pos hmi]
      rw [scanRowInc_frame c f _ (i + 1) (b - 1) c (Or.inr (Or.inl (by omega)))]
      rw [setCell_eval_ne _ _ _ _ _ _ (fun hc => by omega)]
      have heq : (b - 1) = i - 1 := by omega
      rw [heq, setCell_eval_eq]
    · have hilt : i < b := by omega
      by_cases h1 : g i c = TILE_PILLAR
      · exact absurd h1 (hnp i le_rfl hilt)
      · rw [if_neg h1]
        by_cases h2 : g i c = TILE_MONSTER
        · rw [if_pos h2]
          refine ih _ (i + 1) (by omega) (by push_cast at hlt ⊢; omega) ?_ ?_
          · intro x hx1 hx2
            rw [setCell_eval_ne _ _ _ _ _ _ (fun hc => by omega),
                setCell_eval_ne _ _ _ _ _ _ (fun hc => by omega)]
            exact hnp x (by omega) hx2
          · rw [setCell_eval_ne _ _ _ _ _ _ (fun hc => hbi hc.1),
                setCell_eval_ne _ _ _ _ _ _ (fun hc => by omega)]
            exact hm
        · rw [if_neg h2]
          exact ih g (i + 1) (by omega) (by push_cast at hlt ⊢; omega)
            (fun x hx1 hx2 => hnp x (by omega) hx2) hm

/-- The cell just before the scan start (row `i - 1`, the player's own cell
at the top-level call) can only be overwritten with `TILE_MONSTER`, so a
monster standing there survives the scan. -/
theorem scanRowInc_keep (c : Int) (fuel : Nat) (g : Grid) (i : Int)
    (hm : g (i - 1) c = TILE_MONSTER) :
    scanRowInc c g i fuel (i - 1) c = TILE_MONSTER := by
  cases fuel with
  | zero => exact hm
  | succ f =>
    simp only [scanRowInc]
    by_cases h1 : g i c = TILE_PILLAR
    · rw [if_pos h1]; exact hm
    · rw [if_neg h1]
      by_cases h2 : g i c = TILE_MONSTER
      · rw [if_pos h2]
        rw [scanRowInc_frame c f _ (i + 1) (i - 1) c (Or.inr (Or.inl (by omega)))]
        rw [setCell_eval_ne _ _ _ _ _ _ (fun hc => by omega), setCell_eval_eq]
      · rw [if_neg h2]
        rw [scanRowInc_frame c f _ (i + 1) (i - 1) c (Or.inr (Or.inl (by omega)))]
        exact hm

/-! Composed ray lemmas about the full `doMonsterAttack` map update. -/

theorem doMonsterAttack_fst (g : Grid) (maxRow maxCol : Int) (p : Player) :
    (doMonsterAttack g maxRow maxCol p).1 = attackGrid g maxRow maxCol p := rfl

/-- After the two row scans, a monster on the player's own cell is still
there: both scans can only write `TILE_MONSTER` into that cell. -/
theorem rowScans_keep (c rrow : Int) (hr : 0 ≤ rrow) (g : Grid) (fuel : Nat)
    (hm : g rrow c = TILE_MONSTER) :
    scanRowInc c (scanRowDec c g rrow.toNat) (rrow + 1) fuel rrow c = TILE_MONSTER := by
  have hrcast : ((rrow.toNat : Nat) : Int) = rrow := Int.toNat_of_nonneg hr
  have h3 : scanRowDec c g rrow.toNat rrow c = TILE_MONSTER := by
    have h := scanRowDec_keep c rrow.toNat g (by rw [hrcast]; exact hm)
    rw [hrcast] at h
    exact h
  have h4 := scanRowInc_keep c fuel (scanRowDec c g rrow.toNat) (rrow + 1)
    (by have he : rrow + 1 - 1 = rrow := by omega
        rw [he]; exact h3)
  have he : rrow + 1 - 1 = rrow := by omega
  rw [he] at h4
  exact h4

/-- Ray 1 (columns left of the player), blocked: a pillar at column `q`
between the monster (column `a`) and the player means the monster's cell is
untouched by the whole monster pass. -/
theorem attack_ray1_blocked (g : Grid) (maxRow maxCol : Int) (p : Player)
    (a q : Int) (ha : 0 ≤ a) (haq : a < q) (hq : q < p.col)
    (hp : g p.row q = TILE_PILLAR) (hm : g p.row a = TILE_MONSTER) :
    attackGrid g maxRow maxCol p p.row a = TILE_MONSTER := by
  have hcast : ((p.col.toNat : Nat) : Int) = p.col := Int.toNat_of_nonneg (by omega)
  simp only [attackGrid]
  rw [scanRowInc_frame p.col _ _ _ p.row a (Or.inl (by omega))]
  rw [scanRowDec_frame p.col _ _ p.row a (Or.inl (by omega))]
  rw [scanColInc_frame p.row _ _ _ p.row a (Or.inr (Or.inl (by omega)))]
  rw [scanColDec_blocked p.row a q ha haq p.col.toNat g (by rw [hcast]; omega)
      hp p.row a le_rfl]
  exact hm

/-- Ray 2 (columns right of the player), blocked. -/
theorem attack_ray2_blocked (g : Grid) (maxRow maxCol : Int) (p : Player)
    (b q : Int) (hc : 0 ≤ p.col) (hq1 : p.col < q) (hq2 : q < b)
    (hp : g p.row q = TILE_PILLAR) (hm : g p.row b = TILE_MONSTER) :
    attackGrid g maxRow maxCol p p.row b = TILE_MONSTER := by
  have hcast : ((p.col.toNat : Nat) : Int) = p.col := Int.toNat_of_nonneg hc
  simp only [attackGrid]
  rw [scanRowInc_frame p.col _ _ _ p.row b (Or.inl (by omega))]
  rw [scanRowDec_frame p.col _ _ p.row b (Or.inl (by omega))]
  rw [scanColInc_blocked p.row q _ _ (p.col + 1) (by omega)
      (by rw [scanColDec_frame p.row _ g p.row q (Or.inr (Or.inl (by omega)))]
          exact hp)
      p.row b (by omega)]
  rw [scanColDec_frame p.row _ g p.row b (Or.inr (Or.inl (by omega)))]
  exact hm

/-- Ray 3 (rows above the player), blocked. -/
theorem attack_ray3_blocked (g : Grid) (maxRow maxCol : Int) (p : Player)
    (a q : Int) (ha : 0 ≤ a) (haq : a < q) (hq : q < p.row)
    (hp : g q p.col = TILE_PILLAR) (hm : g a p.col = TILE_MONSTER) :
    attackGrid g maxRow maxCol p a p.col = TILE_MONSTER := by
  have hcast : ((p.row.toNat : Nat) : Int) = p.row := Int.toNat_of_nonneg (by omega)
  simp only [attackGrid]
  rw [scanRowInc_frame p.col _ _ _ a p.col (Or.inr (Or.inl (by omega)))]
  rw [scanRowDec_blocked p.col a q ha haq p.row.toNat _ (by rw [hcast]; omega)
      (by rw [scanColInc_frame p.row _ _ _ q p.col (Or.inl (by omega))]
          rw [scanColDec_frame p.row _ g q p.col (Or.inl (by omega))]
          exact hp)
      a p.col le_rfl]
  rw [scanColInc_frame p.row _ _ _ a p.col (Or.inl (by omega))]
  rw [scanColDec_frame p.row _ g a p.col (Or.inl (by omega))]
  exact hm

/-- Ray 4 (rows below the player), blocked. -/
theorem attack_ray4_blocked (g : Grid) (maxRow maxCol : Int) (p : Player)
    (b q : Int) (hr : 0 ≤ p.row) (hq1 : p.row < q) (hq2 : q < b)
    (hp : g q p.col = TILE_PILLAR) (hm : g b p.col = TILE_MONSTER) :
    attackGrid g maxRow maxCol p b p.col = TILE_MONSTER := by
  have hcast : ((p.row.toNat : Nat) : Int) = p.row := Int.toNat_of_nonneg hr
  simp only [attackGrid]
  rw [scanRowInc_blocked p.col q _ _ (p.row + 1) (by omega)
      (by rw [scanRowDec_frame p.col _ _ q p.col (Or.inr (Or.inl (by omega)))]
          rw [scanColInc_frame p.row _ _ _ q p.col (Or.inl (by omega))]
          rw [scanColDec_frame p.row _ g q p.col (Or.inl (by omega))]
          exact hp)
      b p.col (by omega)]
  rw [scanRowDec_frame p.col _ _ b p.col (Or.inr (Or.inl (by omega)))]
  rw [scanColInc_frame p.row _ _ _ b p.col (Or.inl (by omega))]
  rw [scanColDec_frame p.row _ g b p.col (Or.inl (by omega))]
  exact hm

/-- Ray 1 (columns left of the player), clear line of sight: the monster at
column `a` ends the pass one column closer to the player. -/
theorem attack_ray1_clear (g : Grid) (maxRow maxCol : Int) (p : Player)
    (a : Int) (hr : 0 ≤ p.row) (ha : 0 ≤ a) (hac : a < p.col)
    (hnp : ∀ y : Int, a < y → y < p.col → g p.row y ≠ TILE_PILLAR)
    (hm : g p.row a = TILE_MONSTER) :
    attackGrid g maxRow maxCol p p.row (a + 1) = TILE_MONSTER := by
  have hcast : ((p.col.toNat : Nat) : Int) = p.col := Int.toNat_of_nonneg (by omega)
  have h1 : scanColDec p.row g p.col.toNat p.row (a + 1) = TILE_MONSTER :=
    scanColDec_moves p.row a ha p.col.toNat g (by omega)
      (fun y hy1 hy2 => hnp y hy1 (by omega)) hm
  simp only [attackGrid]
  rcases lt_or_eq_of_le (by omega : a + 1 ≤ p.col) with hsplit | hsplit
  · rw [scanRowInc_frame p.col _ _ _ p.row (a + 1) (Or.inl (by omega))]
    rw [scanRowDec_frame p.col _ _ p.row (a + 1) (Or.inl (by omega))]
    rw [scanColInc_frame p.row _ _ _ p.row (a + 1) (Or.inr (Or.inl (by omega)))]
    exact h1
  · rw [hsplit] at h1
    have h2 := scanColInc_keep p.row (maxCol - (p.col + 1)).toNat
      (scanColDec p.row g p.col.toNat) (p.col + 1)
      (by have he : p.col + 1 - 1 = p.col := by omega
          rw [he]; exact h1)
    have he : p.col + 1 - 1 = p.col := by omega
    rw [he] at h2
    rw [hsplit]
    exact rowScans_keep p.col p.row hr _ _ h2

/-- Ray 2 (columns right of the player), clear line of sight. -/
theorem attack_ray2_clear (g : Grid) (maxRow maxCol : Int) (p : Player)
    (b : Int) (hr : 0 ≤ p.row) (hc : 0 ≤ p.col) (hb1 : p.col < b) (hb2 : b < maxCol)
    (hnp : ∀ y : Int, p.col < y → y < b → g p.row y ≠ TILE_PILLAR)
    (hm : g p.row b = TILE_MONSTER) :
    attackGrid g maxRow maxCol p p.row (b - 1) = TILE_MONSTER := by
  have hcast : ((p.col.toNat : Nat) : Int) = p.col := Int.toNat_of_nonneg hc
  have hfuel : (((maxCol - (p.col + 1)).toNat : Nat) : Int) = maxCol - (p.col + 1) :=
    Int.toNat_of_nonneg (by omega)
  have h2 : scanColInc p.row (scanColDec p.row g p.col.toNat)
      (p.col + 1) (maxCol - (p.col + 1)).toNat p.row (b - 1) = TILE_MONSTER := by
    refine scanColInc_moves p.row b _ _ (p.col + 1) (by omega) (by omega) ?_ ?_
    · intro y hy1 hy2
      rw [scanColDec_frame p.row _ g p.row y (Or.inr (Or.inl (by omega)))]
      exact hnp y (by omega) hy2
    · rw [scanColDec_frame p.row _ g p.row b (Or.inr (Or.inl (by omega)))]
      exact hm
  simp only [attackGrid]
  rcases lt_or_eq_of_le (by omega : p.col ≤ b - 1) with hsplit | hsplit
  · rw [scanRowInc_frame p.col _ _ _ p.row (b - 1) (Or.inl (by omega))]
    rw [scanRowDec_frame p.col _ _ p.row (b - 1) (Or.inl (by omega))]
    exact h2
  · rw [← hsplit] at h2
    rw [← hsplit]
    exact rowScans_keep p.col p.row hr _ _ h2

/-- Ray 3 (rows above the player), clear line of sight. -/
theorem attack_ray3_clear (g : Grid) (maxRow maxCol : Int) (p : Player)
    (a : Int) (ha : 0 ≤ a) (har : a < p.row)
    (hnp : ∀ x : Int, a < x → x < p.row → g x p.col ≠ TILE_PILLAR)
    (hm : g a p.col = TILE_MONSTER) :
    attackGrid g maxRow maxCol p (a + 1) p.col = TILE_MONSTER := by
  have hcast : ((p.row.toNat : Nat) : Int) = p.row := Int.toNat_of_nonneg (by omega)
  simp only [attackGrid]
  have h3 : scanRowDec p.col
      (scanColInc p.row (scanColDec p.row g p.col.toNat)
        (p.col + 1) (maxCol - (p.col + 1)).toNat)
      p.row.toNat (a + 1) p.col = TILE_MONSTER := by
    refine scanRowDec_moves p.col a ha p.row.toNat _ (by omega) ?_ ?_
    · intro x hx1 hx2
      rw [scanColInc_frame p.row _ _ _ x p.col (Or.inl (by omega))]
      rw [scanColDec_frame p.row _ g x p.col (Or.inl (by omega))]
      exact hnp x hx1 (by omega)
    · rw [scanColInc_frame p.row _ _ _ a p.col (Or.inl (by omega))]
      rw [scanColDec_frame p.row _ g a p.col (Or.inl (by omega))]
      exact hm
  rcases lt_or_eq_of_le (by omega : a + 1 ≤ p.row) with hsplit | hsplit
  · rw [scanRowInc_frame p.col _ _ _ (a + 1) p.col (Or.inr (Or.inl (by omega)))]
    exact h3
  · have h4 := scanRowInc_keep p.col (maxRow - (p.row + 1)).toNat _ (p.row + 1)
      (by have he : p.row + 1 - 1 = p.row := by omega
          rw [he, ← hsplit]; exact h3)
    have he : p.row + 1 - 1 = p.row := by omega
    rw [he] at h4
    rw [hsplit]
    exact h4

/-- Ray 4 (rows below the player), clear line of sight. -/
theorem attack_ray4_clear (g : Grid) (maxRow maxCol : Int) (p : Player)
    (b : Int) (hr : 0 ≤ p.row) (hb1 : p.row < b) (hb2 : b < maxRow)
    (hnp : ∀ x : Int, p.row < x → x < b → g x p.col ≠ TILE_PILLAR)
    (hm : g b p.col = TILE_MONSTER) :
    attackGrid g maxRow maxCol p (b - 1) p.col = TILE_MONSTER := by
  have hcast : ((p.row.toNat : Nat) : Int) = p.row := Int.toNat_of_nonneg hr
  have hfuel : (((maxRow - (p.row + 1)).toNat : Nat) : Int) = maxRow - (p.row + 1) :=
    Int.toNat_of_nonneg (by omega)
  simp only [attackGrid]
  refine scanRowInc_moves p.col b _ _ (p.row + 1) (by omega) (by omega) ?_ ?_
  · intro x hx1 hx2
    rw [scanRowDec_frame p.col _ _ x p.col (Or.inr (Or.inl (by omega)))]
    rw [scanColInc_frame p.row _ _ _ x p.col (Or.inl (by omega))]
    rw [scanColDec_frame p.row _ g x p.col (Or.inl (by omega))]
    exact hnp x (by omega) hx2
  · rw [scanRowDec_frame p.col _ _ b p.col (Or.inr (Or.inl (by omega)))]
    rw [scanColInc_frame p.row _ _ _ b p.col (Or.inl (by omega))]
    rw [scanColDec_frame p.row _ g b p.col (Or.inl (by omega))]
    exact hm

/-! Claim theorems. -/

/-- C4: `createMap rows cols` yields a map whose every cell is Open whenever
`rows, cols ≥ 1`; for non-positive `rows` or `cols` the result is empty — it
has no in-range cell at all (the code performs no explicit dimension check
and has no null return). -/
theorem createMap_cells (maxRow maxCol : Int) :
    (1 ≤ maxRow → 1 ≤ maxCol →
      ∀ i j : Int, inBounds maxRow maxCol i j → createMap maxRow maxCol i j = TILE_OPEN) ∧
    (maxRow ≤ 0 ∨ maxCol ≤ 0 → ∀ i j : Int, ¬ inBounds maxRow maxCol i j) := by
  constructor
  · intro _ _ i j _; rfl
  · intro h i j hij
    simp only [inBounds] at hij
    rcases h with h | h <;> omega

theorem createMap_cells_witness :
    createMap 3 4 1 2 = TILE_OPEN ∧ ¬ inBounds 0 4 0 0 :=
  ⟨(createMap_cells 3 4).1 (by decide) (by decide) 1 2 (by decide),
   (createMap_cells 0 4).2 (Or.inl (by decide)) 0 0⟩

/-- C3: for a readable, well-formed level source with in-range declared
player coordinates, `loadLevel` returns a player at exactly those
coordinates with `treasure = 0`, and the cell at those coordinates is forced
to `TILE_PLAYER` regardless of the token the source holds there. -/
theorem loadLevel_wellformed (maxRow maxCol prow pcol : Int)
    (tok : Int → Int → Tile)
    (hr0 : 0 ≤ prow) (hrM : prow < maxRow) (hc0 : 0 ≤ pcol) (hcM : pcol < maxCol) :
    (loadLevel maxRow maxCol prow pcol tok).2.row = prow ∧
    (loadLevel maxRow maxCol prow pcol tok).2.col = pcol ∧
    (loadLevel maxRow maxCol prow pcol tok).2.treasure = 0 ∧
    (loadLevel maxRow maxCol prow pcol tok).1 prow pcol = TILE_PLAYER := by
  refine ⟨rfl, rfl, rfl, ?_⟩
  show (if inBounds maxRow maxCol prow pcol then
      if prow = prow ∧ pcol = pcol then TILE_PLAYER else tok prow pcol
    else createMap maxRow maxCol prow pcol) = TILE_PLAYER
  rw [if_pos ⟨hr0, hrM, hc0, hcM⟩, if_pos ⟨rfl, rfl⟩]

theorem loadLevel_wellformed_witness :
    (loadLevel 3 3 1 1 (fun _ _ => TILE_OPEN)).2.row = 1 ∧
    (loadLevel 3 3 1 1 (fun _ _ => TILE_OPEN)).2.col = 1 ∧
    (loadLevel 3 3 1 1 (fun _ _ => TILE_OPEN)).2.treasure = 0 ∧
    (loadLevel 3 3 1 1 (fun _ _ => TILE_OPEN)).1 1 1 = TILE_PLAYER :=
  loadLevel_wellformed 3 3 1 1 (fun _ _ => TILE_OPEN)
    (by decide) (by decide) (by decide) (by decide)

/-- C10: when the declared player coordinates fall outside
`[0, rows) × [0, cols)`, `loadLevel` still returns a map (no error path
fires), no cell of it is forced to `TILE_PLAYER` by the coordinate-forcing
step — every in-range cell keeps the token read for it — and the returned
player carries the out-of-range coordinates as declared. -/
theorem loadLevel_oob (maxRow maxCol prow pcol : Int) (tok : Int → Int → Tile)
    (h : ¬ inBounds maxRow maxCol prow pcol) :
    (loadLevel maxRow maxCol prow pcol tok).2.row = prow ∧
    (loadLevel maxRow maxCol prow pcol tok).2.col = pcol ∧
    ∀ i j : Int, inBounds maxRow maxCol i j →
      (loadLevel maxRow maxCol prow pcol tok).1 i j = tok i j := by
  refine ⟨rfl, rfl, fun i j hij => ?_⟩
  have hne : ¬(i = prow ∧ j = pcol) := by
    rintro ⟨rfl, rfl⟩; exact h hij
  show (if inBounds maxRow maxCol i j then
      if i = prow ∧ j = pcol then TILE_PLAYER else tok i j
    else createMap maxRow maxCol i j) = tok i j
  rw [if_pos hij, if_neg hne]

theorem loadLevel_oob_witness :
    (loadLevel 3 3 5 1 (fun _ _ => TILE_TREASURE)).2.row = 5 ∧
    (loadLevel 3 3 5 1 (fun _ _ => TILE_TREASURE)).2.col = 1 ∧
    (loadLevel 3 3 5 1 (fun _ _ => TILE_TREASURE)).1 0 0 = TILE_TREASURE := by
  have h := loadLevel_oob 3 3 5 1 (fun _ _ => TILE_TREASURE) (by decide)
  exact ⟨h.1, h.2.1, h.2.2 0 0 (by decide)⟩

/-- C6: an out-of-range candidate cell, or an in-range candidate holding a
pillar or a monster, makes `doPlayerMove` return `STATUS_STAY` with the map
and the player (position and treasure) untouched. -/
theorem doPlayerMove_blocked (g : Grid) (maxRow maxCol : Int) (p : Player)
    (nextRow nextCol : Int)
    (h : (nextRow < 0 ∨ maxRow ≤ nextRow ∨ nextCol < 0 ∨ maxCol ≤ nextCol) ∨
         (inBounds maxRow maxCol nextRow nextCol ∧
          (g nextRow nextCol = TILE_PILLAR ∨ g nextRow nextCol = TILE_MONSTER))) :
    doPlayerMove g maxRow maxCol p nextRow nextCol = (g, p, STATUS_STAY) := by
  unfold doPlayerMove
  by_cases hA : nextRow < 0 ∨ nextRow ≥ maxRow
  · rw [if_pos hA]
  · rw [if_neg hA]
    by_cases hB : nextCol < 0 ∨ nextCol ≥ maxCol
    · rw [if_pos hB]
    · rw [if_neg hB]
      have ht : g nextRow nextCol = TILE_PILLAR ∨ g nextRow nextCol = TILE_MONSTER := by
        rcases h with h1 | ⟨_, ht⟩
        · exfalso; push_neg at hA hB
          rcases h1 with h | h | h | h <;> omega
        · exact ht
      rw [if_pos ht]

theorem doPlayerMove_blocked_witness :
    doPlayerMove gridSample 3 3 ⟨1, 1, 0⟩ 3 1 = (gridSample, ⟨1, 1, 0⟩, STATUS_STAY) :=
  doPlayerMove_blocked gridSample 3 3 ⟨1, 1, 0⟩ 3 1 (Or.inl (by decide))

/-- C7: an in-range candidate cell holding Exit yields `STATUS_STAY` with no
mutation when the player has no treasure, and `STATUS_ESCAPE` with the usual
two-cell relocation when the player holds at least one treasure. -/
theorem doPlayerMove_exit (g : Grid) (maxRow maxCol : Int) (p : Player)
    (nextRow nextCol : Int)
    (hb : inBounds maxRow maxCol nextRow nextCol)
    (he : g nextRow nextCol = TILE_EXIT) :
    (p.treasure = 0 →
      doPlayerMove g maxRow maxCol p nextRow nextCol = (g, p, STATUS_STAY)) ∧
    (1 ≤ p.treasure →
      doPlayerMove g maxRow maxCol p nextRow nextCol =
        (relocGrid g p nextRow nextCol,
         { row := nextRow, col := nextCol, treasure := p.treasure },
         STATUS_ESCAPE)) := by
  simp only [inBounds] at hb
  obtain ⟨h1, h2, h3, h4⟩ := hb
  unfold doPlayerMove
  rw [if_neg (show ¬(nextRow < 0 ∨ nextRow ≥ maxRow) by omega)]
  rw [if_neg (show ¬(nextCol < 0 ∨ nextCol ≥ maxCol) by omega)]
  rw [if_neg (show ¬(g nextRow nextCol = TILE_PILLAR ∨ g nextRow nextCol = TILE_MONSTER) by
    rw [he]; rintro (hc | hc) <;> exact absurd hc (by decide))]
  rw [if_neg (show ¬ g nextRow nextCol = TILE_TREASURE by rw [he]; decide)]
  rw [if_neg (show ¬ g nextRow nextCol = TILE_AMULET by rw [he]; decide)]
  rw [if_neg (show ¬ g nextRow nextCol = TILE_DOOR by rw [he]; decide)]
  rw [if_pos he]
  refine ⟨fun h0 => ?_, fun h0 => ?_⟩
  · rw [if_neg (show ¬ p.treasure ≥ 1 by omega)]
  · rw [if_pos (show p.treasure ≥ 1 from h0)]

theorem doPlayerMove_exit_witness :
    doPlayerMove gridExitSample 3 3 ⟨1, 1, 1⟩ 1 2 =
      (relocGrid gridExitSample ⟨1, 1, 1⟩ 1 2, ⟨1, 2, 1⟩, STATUS_ESCAPE) :=
  (doPlayerMove_exit gridExitSample 3 3 ⟨1, 1, 1⟩ 1 2 (by decide) (by decide)).2
    (by decide)

/-- After the two-cell relocation update, the in-range cells holding
`TILE_PLAYER` are exactly the destination cell. -/
theorem relocGrid_marker (g : Grid) (maxRow maxCol : Int) (p : Player)
    (nr nc : Int)
    (hu : ∀ i j : Int, inBounds maxRow maxCol i j →
      (g i j = TILE_PLAYER ↔ (i = p.row ∧ j = p.col))) :
    ∀ i j : Int, inBounds maxRow maxCol i j →
      (relocGrid g p nr nc i j = TILE_PLAYER ↔ (i = nr ∧ j = nc)) := by
  intro i j hij
  unfold relocGrid
  by_cases h1 : i = nr ∧ j = nc
  · obtain ⟨rfl, rfl⟩ := h1
    rw [setCell_eval_eq]
    simp
  · rw [setCell_eval_ne _ _ _ _ _ _ h1]
    by_cases h2 : i = p.row ∧ j = p.col
    · rw [h2.1, h2.2] at h1 ⊢
      rw [setCell_eval_eq]
      exact ⟨fun habs => absurd habs (by decide), fun hrc => absurd hrc h1⟩
    · rw [setCell_eval_ne _ _ _ _ _ _ h2]
      rw [hu i j hij]
      exact ⟨fun hp => absurd hp h2, fun hn => absurd hn h1⟩

/-- C5: starting from a map whose only in-range `TILE_PLAYER` cell is the
player's position, any `doPlayerMove` call whose status is not
`STATUS_STAY` (i.e. any actual relocation: Moved, CollectedTreasure,
CollectedAmulet, ExitedThroughDoor or EscapedDungeon) leaves exactly one
in-range `TILE_PLAYER` cell, namely the updated `(player.row, player.col)`. -/
theorem doPlayerMove_unique_marker (g : Grid) (maxRow maxCol : Int) (p : Player)
    (nextRow nextCol : Int)
    (hu : ∀ i j : Int, inBounds maxRow maxCol i j →
      (g i j = TILE_PLAYER ↔ (i = p.row ∧ j = p.col))) :
    (doPlayerMove g maxRow maxCol p nextRow nextCol).2.2 ≠ STATUS_STAY →
    ∀ i j : Int, inBounds maxRow maxCol i j →
      ((doPlayerMove g maxRow maxCol p nextRow nextCol).1 i j = TILE_PLAYER ↔
        (i = (doPlayerMove g maxRow maxCol p nextRow nextCol).2.1.row ∧
         j = (doPlayerMove g maxRow maxCol p nextRow nextCol).2.1.col)) := by
  unfold doPlayerMove
  split_ifs <;>
    first
      | (intro hst; exact absurd rfl hst)
      | (intro _ i j hij; exact relocGrid_marker g maxRow maxCol p nextRow nextCol hu i j hij)

theorem doPlayerMove_unique_marker_witness :
    (doPlayerMove gridSample 3 3 ⟨1, 1, 0⟩ 2 1).1 2 1 = TILE_PLAYER ∧
    ¬ (doPlayerMove gridSample 3 3 ⟨1, 1, 0⟩ 2 1).1 1 1 = TILE_PLAYER := by
  have hu : ∀ i j : Int, inBounds 3 3 i j →
      (gridSample i j = TILE_PLAYER ↔ (i = (1 : Int) ∧ j = (1 : Int))) := by
    intro i j hij
    simp only [inBounds] at hij
    obtain ⟨h1, h2, h3, h4⟩ := hij
    interval_cases i <;> interval_cases j <;> decide
  have h := doPlayerMove_unique_marker gridSample 3 3 ⟨1, 1, 0⟩ 2 1 hu (by decide)
  constructor
  · exact (h 2 1 (by decide)).2 (by decide)
  · intro habs
    exact absurd ((h 1 1 (by decide)).1 habs) (by decide)

/-! Lemmas about the player search in `resizeMap`. -/

/-- A row segment without the player marker leaves the accumulator alone. -/
theorem findInRow_no_marker (g : Grid) (i : Int) :
    ∀ (fuel : Nat) (j : Int) (acc : Int × Int),
      (∀ y : Int, j ≤ y → y < j + (fuel : Int) → g i y ≠ TILE_PLAYER) →
      findInRow g i j acc fuel = acc := by
  intro fuel
  induction fuel with
  | zero => intro j acc _; rfl
  | succ f ih =>
    intro j acc h
    simp only [findInRow]
    rw [if_neg (h j le_rfl (by push_cast; omega))]
    exact ih (j + 1) acc fun y hy1 hy2 => h y (by omega) (by push_cast at hy2 ⊢; omega)

/-- Scanning a row that holds the marker at column `c` (and nowhere else in
the scanned range) returns `(r, c)` whatever the accumulator was. -/
theorem findInRow_finds (g : Grid) (r c : Int) :
    ∀ (fuel : Nat) (j : Int) (acc : Int × Int),
      j ≤ c → c < j + (fuel : Int) → g r c = TILE_PLAYER →
      (∀ y : Int, j ≤ y → y < j + (fuel : Int) → y ≠ c → g r y ≠ TILE_PLAYER) →
      findInRow g r j acc fuel = (r, c) := by
  intro fuel
  induction fuel with
  | zero => intro j acc h1 h2 _ _; exfalso; omega
  | succ f ih =>
    intro j acc hjc hlt hm huniq
    simp only [findInRow]
    by_cases hjeq : j = c
    · subst hjeq
      rw [if_pos hm]
      exact findInRow_no_marker g r f (j + 1) (r, j)
        fun y hy1 hy2 => huniq y (by omega) (by push_cast at hy2 ⊢; omega) (by omega)
    · rw [if_neg (huniq j le_rfl (by push_cast; omega) hjeq)]
      exact ih (j + 1) acc (by omega) (by push_cast at hlt ⊢; omega) hm
        fun y hy1 hy2 hy3 => huniq y (by omega) (by push_cast at hy2 ⊢; omega) hy3

/-- Rows without the marker leave the accumulator alone. -/
theorem findPlayer_no_marker (g : Grid) (maxCol : Int) :
    ∀ (fuelRows : Nat) (i : Int) (acc : Int × Int),
      (∀ x y : Int, i ≤ x → x < i + (fuelRows : Int) →
        0 ≤ y → y < ((maxCol.toNat : Nat) : Int) → g x y ≠ TILE_PLAYER) →
      findPlayer g maxCol i acc fuelRows = acc := by
  intro fuelRows
  induction fuelRows with
  | zero => intro i acc _; rfl
  | succ f ih =>
    intro i acc h
    simp only [findPlayer]
    rw [findInRow_no_marker g i maxCol.toNat 0 acc
      (fun y hy1 hy2 => h i y le_rfl (by push_cast; omega) hy1 (by omega))]
    exact ih (i + 1) acc fun x y hx1 hx2 hy1 hy2 =>
      h x y (by omega) (by push_cast at hx2 ⊢; omega) hy1 hy2

/-- The search loop in `resizeMap` returns the coordinates of the unique
in-range cell holding the player marker. -/
theorem findPlayer_finds (g : Grid) (maxCol r c : Int)
    (hc0 : 0 ≤ c) (hcM : c < maxCol) (hm : g r c = TILE_PLAYER) :
    ∀ (fuelRows : Nat) (i : Int) (acc : Int × Int),
      i ≤ r → r < i + (fuelRows : Int) →
      (∀ x y : Int, i ≤ x → x < i + (fuelRows : Int) → 0 ≤ y → y < maxCol →
        ¬(x = r ∧ y = c) → g x y ≠ TILE_PLAYER) →
      findPlayer g maxCol i acc fuelRows = (r, c) := by
  have hcast : ((maxCol.toNat : Nat) : Int) = maxCol := Int.toNat_of_nonneg (by omega)
  intro fuelRows
  induction fuelRows with
  | zero => intro i acc h1 h2 _; exfalso; omega
  | succ f ih =>
    intro i acc hir hlt huniq
    simp only [findPlayer]
    by_cases hieq : i = r
    · subst hieq
      rw [findInRow_finds g i c maxCol.toNat 0 acc hc0 (by rw [hcast]; omega) hm
        (fun y hy1 hy2 hy3 =>
          huniq i y le_rfl (by push_cast; omega) hy1 (by rw [hcast] at hy2; omega)
            (fun hcon => hy3 hcon.2))]
      exact findPlayer_no_marker g maxCol f (i + 1) (i, c)
        fun x y hx1 hx2 hy1 hy2 =>
          huniq x y (by omega) (by push_cast at hx2 ⊢; omega) hy1
            (by rw [hcast] at hy2; omega) (fun hcon => by omega)
    · have hinner : findInRow g i 0 acc maxCol.toNat = acc :=
        findInRow_no_marker g i maxCol.toNat 0 acc
          (fun y hy1 hy2 =>
            huniq i y le_rfl (by push_cast; omega) hy1 (by rw [hcast] at hy2; omega)
              (fun hcon => hieq hcon.1))
      rw [hinner]
      exact ih (i + 1) acc (by omega) (by push_cast at hlt ⊢; omega)
        fun x y hx1 hx2 hy1 hy2 hne =>
          huniq x y (by omega) (by push_cast at hx2 ⊢; omega) hy1 hy2 hne

/-- C2: with exactly one in-range `TILE_PLAYER` cell at `(r, c)`, `resizeMap`
doubles both dimensions; every cell of the doubled map equals the old map at
`(i mod rows, j mod cols)` with the old marker cell read as `TILE_OPEN`,
except `(r, c)` itself which is `TILE_PLAYER`; and the doubled map again has
exactly one in-range `TILE_PLAYER` cell, at the unchanged coordinates
`(r, c)`. -/
theorem resizeMap_spec (g : Grid) (maxRow maxCol r c : Int)
    (hrow : 1 ≤ maxRow) (hcol : 1 ≤ maxCol)
    (hr0 : 0 ≤ r) (hrM : r < maxRow) (hc0 : 0 ≤ c) (hcM : c < maxCol)
    (hm : g r c = TILE_PLAYER)
    (huniq : ∀ i j : Int, inBounds maxRow maxCol i j → ¬(i = r ∧ j = c) →
      g i j ≠ TILE_PLAYER) :
    (resizeMap g maxRow maxCol).2.1 = 2 * maxRow ∧
    (resizeMap g maxRow maxCol).2.2 = 2 * maxCol ∧
    (∀ i j : Int, 0 ≤ i → i < 2 * maxRow → 0 ≤ j → j < 2 * maxCol →
      (resizeMap g maxRow maxCol).1 i j =
        if i = r ∧ j = c then TILE_PLAYER
        else setCell g r c TILE_OPEN (i % maxRow) (j % maxCol)) ∧
    (∀ i j : Int, 0 ≤ i → i < 2 * maxRow → 0 ≤ j → j < 2 * maxCol →
      ((resizeMap g maxRow maxCol).1 i j = TILE_PLAYER ↔ (i = r ∧ j = c))) := by
  have hrowcast : ((maxRow.toNat : Nat) : Int) = maxRow := Int.toNat_of_nonneg (by omega)
  have hfind : findPlayer g maxCol 0 (0, 0) maxRow.toNat = (r, c) :=
    findPlayer_finds g maxCol r c hc0 hcM hm maxRow.toNat 0 (0, 0) hr0
      (by rw [hrowcast]; omega)
      (fun x y hx1 hx2 hy1 hy2 hne =>
        huniq x y ⟨hx1, by rw [hrowcast] at hx2; omega, hy1, hy2⟩ hne)
  have hres : resizeMap g maxRow maxCol =
      (setCell (fun i j => setCell g r c TILE_OPEN (i % maxRow) (j % maxCol))
        r c TILE_PLAYER, 2 * maxRow, 2 * maxCol) := by
    simp only [resizeMap]
    rw [hfind]
  rw [hres]
  refine ⟨rfl, rfl, fun i j hi1 hi2 hj1 hj2 => ?_, fun i j hi1 hi2 hj1 hj2 => ?_⟩
  all_goals dsimp only
  · by_cases hij : i = r ∧ j = c
    · obtain ⟨rfl, rfl⟩ := hij
      rw [setCell_eval_eq, if_pos ⟨rfl, rfl⟩]
    · rw [setCell_eval_ne _ _ _ _ _ _ hij, if_neg hij]
  · constructor
    · intro hp
      by_contra hij
      rw [setCell_eval_ne _ _ _ _ _ _ hij] at hp
      have hi' : 0 ≤ i % maxRow ∧ i % maxRow < maxRow :=
        ⟨Int.emod_nonneg i (by omega), Int.emod_lt_of_pos i (by omega)⟩
      have hj' : 0 ≤ j % maxCol ∧ j % maxCol < maxCol :=
        ⟨Int.emod_nonneg j (by omega), Int.emod_lt_of_pos j (by omega)⟩
      by_cases hmod : i % maxRow = r ∧ j % maxCol = c
      · rw [hmod.1, hmod.2, setCell_eval_eq] at hp
        exact absurd hp (by decide)
      · rw [setCell_eval_ne _ _ _ _ _ _ hmod] at hp
        exact huniq _ _ ⟨hi'.1, hi'.2, hj'.1, hj'.2⟩ hmod hp
    · rintro ⟨rfl, rfl⟩
      rw [setCell_eval_eq]

theorem resizeMap_spec_witness :
    (resizeMap gridSample 3 3).2.1 = 6 ∧
    (resizeMap gridSample 3 3).2.2 = 6 ∧
    (resizeMap gridSample 3 3).1 1 1 = TILE_PLAYER ∧
    (resizeMap gridSample 3 3).1 5 4 = TILE_TREASURE ∧
    ¬ (resizeMap gridSample 3 3).1 4 4 = TILE_PLAYER := by
  have huniq : ∀ i j : Int, inBounds 3 3 i j → ¬(i = (1 : Int) ∧ j = (1 : Int)) →
      gridSample i j ≠ TILE_PLAYER := by
    intro i j hij hne
    simp only [inBounds] at hij
    obtain ⟨h1, h2, h3, h4⟩ := hij
    revert hne
    interval_cases i <;> interval_cases j <;> decide
  have h := resizeMap_spec gridSample 3 3 1 1 (by decide) (by decide) (by decide)
    (by decide) (by decide) (by decide) (by decide) huniq
  refine ⟨h.1.trans (by decide), h.2.1.trans (by decide), ?_, ?_, ?_⟩
  · exact (h.2.2.2 1 1 (by decide) (by decide) (by decide) (by decide)).2 ⟨rfl, rfl⟩
  · rw [h.2.2.1 5 4 (by decide) (by decide) (by decide) (by decide)]
    decide
  · intro habs
    exact absurd ((h.2.2.2 4 4 (by decide) (by decide) (by decide) (by decide)).1 habs)
      (by decide)

/-- C1 counterexample: on the 1 × 3 level `M M P` a single `doMonsterAttack`
call relocates BOTH monsters of the one unobstructed leftward ray — the
farther monster at `(0,0)` also moves (its cell becomes Open, column 1
becomes Monster, and the nearer monster lands on the player) — so a ray can
relocate more than one monster per invocation and scanning does continue
past a moved monster. -/
theorem doMonsterAttack_two_relocations :
    (doMonsterAttack gridTwoMonsters 1 3 ⟨0, 2, 0⟩).1 0 0 = TILE_OPEN ∧
    (doMonsterAttack gridTwoMonsters 1 3 ⟨0, 2, 0⟩).1 0 1 = TILE_MONSTER ∧
    (doMonsterAttack gridTwoMonsters 1 3 ⟨0, 2, 0⟩).1 0 2 = TILE_MONSTER := by
  decide

/-- C1 amended: a ray loop does not stop after relocating a monster — on
each of the four axis-aligned rays, every monster the scan meets before the
first pillar moves one step toward the player.  Stated with two monsters per
ray: both the nearer and the farther monster of a pillar-free ray segment
end the pass one step closer to the player. -/
theorem doMonsterAttack_ray_moves_all (g : Grid) (maxRow maxCol : Int)
    (p : Player) (hr : 0 ≤ p.row) (hc : 0 ≤ p.col) :
    (∀ a b : Int, 0 ≤ a → a < b → b < p.col →
      (∀ y : Int, a < y → y < p.col → g p.row y ≠ TILE_PILLAR) →
      g p.row a = TILE_MONSTER → g p.row b = TILE_MONSTER →
      (doMonsterAttack g maxRow maxCol p).1 p.row (a + 1) = TILE_MONSTER ∧
      (doMonsterAttack g maxRow maxCol p).1 p.row (b + 1) = TILE_MONSTER) ∧
    (∀ a b : Int, p.col < b → b < a → a < maxCol →
      (∀ y : Int, p.col < y → y < a → g p.row y ≠ TILE_PILLAR) →
      g p.row a = TILE_MONSTER → g p.row b = TILE_MONSTER →
      (doMonsterAttack g maxRow maxCol p).1 p.row (a - 1) = TILE_MONSTER ∧
      (doMonsterAttack g maxRow maxCol p).1 p.row (b - 1) = TILE_MONSTER) ∧
    (∀ a b : Int, 0 ≤ a → a < b → b < p.row →
      (∀ x : Int, a < x → x < p.row → g x p.col ≠ TILE_PILLAR) →
      g a p.col = TILE_MONSTER → g b p.col = TILE_MONSTER →
      (doMonsterAttack g maxRow maxCol p).1 (a + 1) p.col = TILE_MONSTER ∧
      (doMonsterAttack g maxRow maxCol p).1 (b + 1) p.col = TILE_MONSTER) ∧
    (∀ a b : Int, p.row < b → b < a → a < maxRow →
      (∀ x : Int, p.row < x → x < a → g x p.col ≠ TILE_PILLAR) →
      g a p.col = TILE_MONSTER → g b p.col = TILE_MONSTER →
      (doMonsterAttack g maxRow maxCol p).1 (a - 1) p.col = TILE_MONSTER ∧
      (doMonsterAttack g maxRow maxCol p).1 (b - 1) p.col = TILE_MONSTER) := by
  rw [doMonsterAttack_fst]
  refine ⟨fun a b h1 h2 h3 hnp hma hmb => ?_, fun a b h1 h2 h3 hnp hma hmb => ?_,
          fun a b h1 h2 h3 hnp hma hmb => ?_, fun a b h1 h2 h3 hnp hma hmb => ?_⟩
  · exact ⟨attack_ray1_clear g maxRow maxCol p a hr h1 (by omega) hnp hma,
           attack_ray1_clear g maxRow maxCol p b hr (by omega) h3
             (fun y hy1 hy2 => hnp y (by omega) hy2) hmb⟩
  · exact ⟨attack_ray2_clear g maxRow maxCol p a hr hc (by omega) h3 hnp hma,
           attack_ray2_clear g maxRow maxCol p b hr hc h1 (by omega)
             (fun y hy1 hy2 => hnp y hy1 (by omega)) hmb⟩
  · exact ⟨attack_ray3_clear g maxRow maxCol p a h1 (by omega) hnp hma,
           attack_ray3_clear g maxRow maxCol p b (by omega) h3
             (fun x hx1 hx2 => hnp x (by omega) hx2) hmb⟩
  · exact ⟨attack_ray4_clear g maxRow maxCol p a hr (by omega) h3 hnp hma,
           attack_ray4_clear g maxRow maxCol p b hr h1 (by omega)
             (fun x hx1 hx2 => hnp x hx1 (by omega)) hmb⟩

theorem doMonsterAttack_ray_moves_all_witness :
    ((doMonsterAttack gridTwoMonsters 1 3 ⟨0, 2, 0⟩).1 0 (0 + 1) = TILE_MONSTER ∧
     (doMonsterAttack gridTwoMonsters 1 3 ⟨0, 2, 0⟩).1 0 (1 + 1) = TILE_MONSTER) ∧
    ((doMonsterAttack gridTwoMonstersCol 3 1 ⟨2, 0, 0⟩).1 (0 + 1) 0 = TILE_MONSTER ∧
     (doMonsterAttack gridTwoMonstersCol 3 1 ⟨2, 0, 0⟩).1 (1 + 1) 0 = TILE_MONSTER) := by
  constructor
  · exact (doMonsterAttack_ray_moves_all gridTwoMonsters 1 3 ⟨0, 2, 0⟩
      (by decide) (by decide)).1 0 1 (by decide) (by decide) (by decide)
      (fun y hy1 hy2 => by interval_cases y <;> decide) (by decide) (by decide)
  · exact (doMonsterAttack_ray_moves_all gridTwoMonstersCol 3 1 ⟨2, 0, 0⟩
      (by decide) (by decide)).2.2.1 0 1 (by decide) (by decide) (by decide)
      (fun x hx1 hx2 => by interval_cases x <;> decide) (by decide) (by decide)

/-- C8: on each of the four rays, a monster separated from the player by a
pillar never moves (its cell is untouched by the whole pass), while a
monster with a pillar-free segment to the player ends the pass one step
closer to the player (the cell one step toward the player holds Monster
afterwards). -/
theorem doMonsterAttack_lineOfSight (g : Grid) (maxRow maxCol : Int)
    (p : Player) (hr : 0 ≤ p.row) (hc : 0 ≤ p.col) :
    (∀ a q : Int, 0 ≤ a → a < q → q < p.col → g p.row q = TILE_PILLAR →
      g p.row a = TILE_MONSTER →
      (doMonsterAttack g maxRow maxCol p).1 p.row a = TILE_MONSTER) ∧
    (∀ b q : Int, p.col < q → q < b → g p.row q = TILE_PILLAR →
      g p.row b = TILE_MONSTER →
      (doMonsterAttack g maxRow maxCol p).1 p.row b = TILE_MONSTER) ∧
    (∀ a q : Int, 0 ≤ a → a < q → q < p.row → g q p.col = TILE_PILLAR →
      g a p.col = TILE_MONSTER →
      (doMonsterAttack g maxRow maxCol p).1 a p.col = TILE_MONSTER) ∧
    (∀ b q : Int, p.row < q → q < b → g q p.col = TILE_PILLAR →
      g b p.col = TILE_MONSTER →
      (doMonsterAttack g maxRow maxCol p).1 b p.col = TILE_MONSTER) ∧
    (∀ a : Int, 0 ≤ a → a < p.col →
      (∀ y : Int, a < y → y < p.col → g p.row y ≠ TILE_PILLAR) →
      g p.row a = TILE_MONSTER →
      (doMonsterAttack g maxRow maxCol p).1 p.row (a + 1) = TILE_MONSTER) ∧
    (∀ b : Int, p.col < b → b < maxCol →
      (∀ y : Int, p.col < y → y < b → g p.row y ≠ TILE_PILLAR) →
      g p.row b = TILE_MONSTER →
      (doMonsterAttack g maxRow maxCol p).1 p.row (b - 1) = TILE_MONSTER) ∧
    (∀ a : Int, 0 ≤ a → a < p.row →
      (∀ x : Int, a < x → x < p.row → g x p.col ≠ TILE_PILLAR) →
      g a p.col = TILE_MONSTER →
      (doMonsterAttack g maxRow maxCol p).1 (a + 1) p.col = TILE_MONSTER) ∧
    (∀ b : Int, p.row < b → b < maxRow →
      (∀ x : Int, p.row < x → x < b → g x p.col ≠ TILE_PILLAR) →
      g b p.col = TILE_MONSTER →
      (doMonsterAttack g maxRow maxCol p).1 (b - 1) p.col = TILE_MONSTER) := by
  rw [doMonsterAttack_fst]
  exact ⟨fun a q h1 h2 h3 h4 h5 => attack_ray1_blocked g maxRow maxCol p a q h1 h2 h3 h4 h5,
         fun b q h1 h2 h3 h4 => attack_ray2_blocked g maxRow maxCol p b q hc h1 h2 h3 h4,
         fun a q h1 h2 h3 h4 h5 => attack_ray3_blocked g maxRow maxCol p a q h1 h2 h3 h4 h5,
         fun b q h1 h2 h3 h4 => attack_ray4_blocked g maxRow maxCol p b q hr h1 h2 h3 h4,
         fun a h1 h2 h3 h4 => attack_ray1_clear g maxRow maxCol p a hr h1 h2 h3 h4,
         fun b h1 h2 h3 h4 => attack_ray2_clear g maxRow maxCol p b hr hc h1 h2 h3 h4,
         fun a h1 h2 h3 h4 => attack_ray3_clear g maxRow maxCol p a h1 h2 h3 h4,
         fun b h1 h2 h3 h4 => attack_ray4_clear g maxRow maxCol p b hr h1 h2 h3 h4⟩

theorem doMonsterAttack_lineOfSight_witness :
    (doMonsterAttack gridMonsterPillar 1 3 ⟨0, 2, 0⟩).1 0 0 = TILE_MONSTER ∧
    (doMonsterAttack gridMonsterGap 1 3 ⟨0, 2, 0⟩).1 0 (0 + 1) = TILE_MONSTER := by
  constructor
  · exact (doMonsterAttack_lineOfSight gridMonsterPillar 1 3 ⟨0, 2, 0⟩
      (by decide) (by decide)).1 0 1 (by decide) (by decide) (by decide)
      (by decide) (by decide)
  · exact (doMonsterAttack_lineOfSight gridMonsterGap 1 3 ⟨0, 2, 0⟩
      (by decide) (by decide)).2.2.2.2.1 0 (by decide) (by decide)
      (fun y hy1 hy2 => by interval_cases y <;> decide) (by decide)

/-! Vacated-cell lemmas: a lone monster adjacent to the player steps onto the
player's cell and its old cell becomes `TILE_OPEN` (not a copy of the player
marker). -/

/-- Leftward-adjacent case. -/
theorem attack_ray1_vacated (g : Grid) (maxRow maxCol : Int) (p : Player)
    (hr : 0 ≤ p.row) (hc1 : 1 ≤ p.col)
    (hpl : g p.row p.col = TILE_PLAYER)
    (honly : ∀ x y : Int, ¬(x = p.row ∧ y = p.col - 1) → g x y ≠ TILE_MONSTER)
    (hm : g p.row (p.col - 1) = TILE_MONSTER) :
    attackGrid g maxRow maxCol p p.row (p.col - 1) = TILE_OPEN := by
  obtain ⟨m, hm2⟩ : ∃ m : Nat, p.col.toNat = m + 1 := ⟨p.col.toNat - 1, by omega⟩
  have hcolcast : ((p.col.toNat : Nat) : Int) = p.col := Int.toNat_of_nonneg (by omega)
  have hmcast : ((m : Nat) : Int) = p.col - 1 := by omega
  have hg1 : scanColDec p.row g p.col.toNat =
      setCell (setCell g p.row p.col TILE_MONSTER) p.row (p.col - 1) TILE_OPEN := by
    rw [hm2]
    simp only [scanColDec]
    rw [hmcast]
    rw [show p.col - 1 + 1 = p.col from by omega]
    rw [if_neg (by rw [hm]; decide), if_pos hm]
    rw [if_pos hpl]
    apply scanColDec_id
    intro y hy1 hy2
    have hylt : y < p.col - 1 := by omega
    rw [setCell_eval_ne _ _ _ _ _ _ (fun hcon => by omega),
        setCell_eval_ne _ _ _ _ _ _ (fun hcon => by omega)]
    exact honly p.row y (fun hcon => by omega)
  have hg2 : scanColInc p.row (scanColDec p.row g p.col.toNat) (p.col + 1)
      (maxCol - (p.col + 1)).toNat = scanColDec p.row g p.col.toNat := by
    apply scanColInc_id
    intro y hy1 hy2
    rw [hg1]
    rw [setCell_eval_ne _ _ _ _ _ _ (fun hcon => by omega),
        setCell_eval_ne _ _ _ _ _ _ (fun hcon => by omega)]
    exact honly p.row y (fun hcon => by omega)
  have hg3 : scanRowDec p.col (scanColDec p.row g p.col.toNat) p.row.toNat =
      scanColDec p.row g p.col.toNat := by
    apply scanRowDec_id
    intro x hx1 hx2
    have hxlt : x < p.row := by rw [Int.toNat_of_nonneg hr] at hx2; exact hx2
    rw [hg1]
    rw [setCell_eval_ne _ _ _ _ _ _ (fun hcon => by omega),
        setCell_eval_ne _ _ _ _ _ _ (fun hcon => by omega)]
    exact honly x p.col (fun hcon => by omega)
  have hg4 : scanRowInc p.col (scanColDec p.row g p.col.toNat) (p.row + 1)
      (maxRow - (p.row + 1)).toNat = scanColDec p.row g p.col.toNat := by
    apply scanRowInc_id
    intro x hx1 hx2
    rw [hg1]
    rw [setCell_eval_ne _ _ _ _ _ _ (fun hcon => by omega),
        setCell_eval_ne _ _ _ _ _ _ (fun hcon => by omega)]
    exact honly x p.col (fun hcon => by omega)
  simp only [attackGrid]
  rw [hg2, hg3, hg4, hg1, setCell_eval_eq]

/-- Rightward-adjacent case. -/
theorem attack_ray2_vacated (g : Grid) (maxRow maxCol : Int) (p : Player)
    (hr : 0 ≤ p.row) (hc : 0 ≤ p.col) (hcM : p.col + 1 < maxCol)
    (hpl : g p.row p.col = TILE_PLAYER)
    (honly : ∀ x y : Int, ¬(x = p.row ∧ y = p.col + 1) → g x y ≠ TILE_MONSTER)
    (hm : g p.row (p.col + 1) = TILE_MONSTER) :
    attackGrid g maxRow maxCol p p.row (p.col + 1) = TILE_OPEN := by
  have hcolcast : ((p.col.toNat : Nat) : Int) = p.col := Int.toNat_of_nonneg hc
  have hg1 : scanColDec p.row g p.col.toNat = g := by
    apply scanColDec_id
    intro y hy1 hy2
    exact honly p.row y (fun hcon => by omega)
  obtain ⟨f, hf⟩ : ∃ f : Nat, (maxCol - (p.col + 1)).toNat = f + 1 :=
    ⟨(maxCol - (p.col + 1)).toNat - 1, by omega⟩
  have hg2 : scanColInc p.row (scanColDec p.row g p.col.toNat) (p.col + 1)
      (maxCol - (p.col + 1)).toNat =
      setCell (setCell g p.row p.col TILE_MONSTER) p.row (p.col + 1) TILE_OPEN := by
    rw [hg1, hf]
    simp only [scanColInc]
    rw [show p.col + 1 - 1 = p.col from by omega]
    rw [if_neg (by rw [hm]; decide), if_pos hm]
    rw [if_pos hpl]
    apply scanColInc_id
    intro y hy1 hy2
    rw [setCell_eval_ne _ _ _ _ _ _ (fun hcon => by omega),
        setCell_eval_ne _ _ _ _ _ _ (fun hcon => by omega)]
    exact honly p.row y (fun hcon => by omega)
  have hg3 : scanRowDec p.col
      (setCell (setCell g p.row p.col TILE_MONSTER) p.row (p.col + 1) TILE_OPEN)
      p.row.toNat =
      setCell (setCell g p.row p.col TILE_MONSTER) p.row (p.col + 1) TILE_OPEN := by
    apply scanRowDec_id
    intro x hx1 hx2
    have hxlt : x < p.row := by rw [Int.toNat_of_nonneg hr] at hx2; exact hx2
    rw [setCell_eval_ne _ _ _ _ _ _ (fun hcon => by omega),
        setCell_eval_ne _ _ _ _ _ _ (fun hcon => by omega)]
    exact honly x p.col (fun hcon => by omega)
  have hg4 : scanRowInc p.col
      (setCell (setCell g p.row p.col TILE_MONSTER) p.row (p.col + 1) TILE_OPEN)
      (p.row + 1) (maxRow - (p.row + 1)).toNat =
      setCell (setCell g p.row p.col TILE_MONSTER) p.row (p.col + 1) TILE_OPEN := by
    apply scanRowInc_id
    intro x hx1 hx2
    rw [setCell_eval_ne _ _ _ _ _ _ (fun hcon => by omega),
        setCell_eval_ne _ _ _ _ _ _ (fun hcon => by omega)]
    exact honly x p.col (fun hcon => by omega)
  simp only [attackGrid]
  rw [hg2, hg3, hg4, setCell_eval_eq]

/-- Upward-adjacent case. -/
theorem attack_ray3_vacated (g : Grid) (maxRow maxCol : Int) (p : Player)
    (hr1 : 1 ≤ p.row) (hc : 0 ≤ p.col)
    (hpl : g p.row p.col = TILE_PLAYER)
    (honly : ∀ x y : Int, ¬(x = p.row - 1 ∧ y = p.col) → g x y ≠ TILE_MONSTER)
    (hm : g (p.row - 1) p.col = TILE_MONSTER) :
    attackGrid g maxRow maxCol p (p.row - 1) p.col = TILE_OPEN := by
  have hcolcast : ((p.col.toNat : Nat) : Int) = p.col := Int.toNat_of_nonneg hc
  have hg1 : scanColDec p.row g p.col.toNat = g := by
    apply scanColDec_id
    intro y hy1 hy2
    exact honly p.row y (fun hcon => by omega)
  have hg2 : scanColInc p.row (scanColDec p.row g p.col.toNat) (p.col + 1)
      (maxCol - (p.col + 1)).toNat = g := by
    rw [hg1]
    apply scanColInc_id
    intro y hy1 hy2
    exact honly p.row y (fun hcon => by omega)
  obtain ⟨m, hm2⟩ : ∃ m : Nat, p.row.toNat = m + 1 := ⟨p.row.toNat - 1, by omega⟩
  have hmcast : ((m : Nat) : Int) = p.row - 1 := by omega
  have hg3 : scanRowDec p.col
      (scanColInc p.row (scanColDec p.row g p.col.toNat) (p.col + 1)
        (maxCol - (p.col + 1)).toNat) p.row.toNat =
      setCell (setCell g p.row p.col TILE_MONSTER) (p.row - 1) p.col TILE_OPEN := by
    rw [hg2, hm2]
    simp only [scanRowDec]
    rw [hmcast]
    rw [show p.row - 1 + 1 = p.row from by omega]
    rw [if_neg (by rw [hm]; decide), if_pos hm]
    rw [if_pos hpl]
    apply scanRowDec_id
    intro x hx1 hx2
    have hxlt : x < p.row - 1 := by omega
    rw [setCell_eval_ne _ _ _ _ _ _ (fun hcon => by omega),
        setCell_eval_ne _ _ _ _ _ _ (fun hcon => by omega)]
    exact honly x p.col (fun hcon => by omega)
  have hg4 : scanRowInc p.col
      (setCell (setCell g p.row p.col TILE_MONSTER) (p.row - 1) p.col TILE_OPEN)
      (p.row + 1) (maxRow - (p.row + 1)).toNat =
      setCell (setCell g p.row p.col TILE_MONSTER) (p.row - 1) p.col TILE_OPEN := by
    apply scanRowInc_id
    intro x hx1 hx2
    rw [setCell_eval_ne _ _ _ _ _ _ (fun hcon => by omega),
        setCell_eval_ne _ _ _ _ _ _ (fun hcon => by omega)]
    exact honly x p.col (fun hcon => by omega)
  simp only [attackGrid]
  rw [hg3, hg4, setCell_eval_eq]

/-- Downward-adjacent case. -/
theorem attack_ray4_vacated (g : Grid) (maxRow maxCol : Int) (p : Player)
    (hr : 0 ≤ p.row) (hc : 0 ≤ p.col) (hrM : p.row + 1 < maxRow)
    (hpl : g p.row p.col = TILE_PLAYER)
    (honly : ∀ x y : Int, ¬(x = p.row + 1 ∧ y = p.col) → g x y ≠ TILE_MONSTER)
    (hm : g (p.row + 1) p.col = TILE_MONSTER) :
    attackGrid g maxRow maxCol p (p.row + 1) p.col = TILE_OPEN := by
  have hcolcast : ((p.col.toNat : Nat) : Int) = p.col := Int.toNat_of_nonneg hc
  have hg1 : scanColDec p.row g p.col.toNat = g := by
    apply scanColDec_id
    intro y hy1 hy2
    exact honly p.row y (fun hcon => by omega)
  have hg2 : scanColInc p.row (scanColDec p.row g p.col.toNat) (p.col + 1)
      (maxCol - (p.col + 1)).toNat = g := by
    rw [hg1]
    apply scanColInc_id
    intro y hy1 hy2
    exact honly p.row y (fun hcon => by omega)
  have hg3 : scanRowDec p.col
      (scanColInc p.row (scanColDec p.row g p.col.toNat) (p.col + 1)
        (maxCol - (p.col + 1)).toNat) p.row.toNat = g := by
    rw [hg2]
    apply scanRowDec_id
    intro x hx1 hx2
    exact honly x p.col (fun hcon => by omega)
  obtain ⟨f, hf⟩ : ∃ f : Nat, (maxRow - (p.row + 1)).toNat = f + 1 :=
    ⟨(maxRow - (p.row + 1)).toNat - 1, by omega⟩
  have hg4 : scanRowInc p.col
      (scanRowDec p.col
        (scanColInc p.row (scanColDec p.row g p.col.toNat) (p.col + 1)
          (maxCol - (p.col + 1)).toNat) p.row.toNat)
      (p.row + 1) (maxRow - (p.row + 1)).toNat =
      setCell (setCell g p.row p.col TILE_MONSTER) (p.row + 1) p.col TILE_OPEN := by
    rw [hg3, hf]
    simp only [scanRowInc]
    rw [show p.row + 1 - 1 = p.row from by omega]
    rw [if_neg (by rw [hm]; decide), if_pos hm]
    rw [if_pos hpl]
    apply scanRowInc_id
    intro x hx1 hx2
    rw [setCell_eval_ne _ _ _ _ _ _ (fun hcon => by omega),
        setCell_eval_ne _ _ _ _ _ _ (fun hcon => by omega)]
    exact honly x p.col (fun hcon => by omega)
  simp only [attackGrid]
  rw [hg4, setCell_eval_eq]

/-- C9: `doMonsterAttack` returns `true` exactly when, after the four ray
scans, the player's own cell holds Monster; and when a lone adjacent monster
steps onto the player's cell (any of the four adjacencies), the vacated
monster cell becomes `TILE_OPEN` instead of copying the player marker. -/
theorem doMonsterAttack_capture (g : Grid) (maxRow maxCol : Int) (p : Player)
    (hr : 0 ≤ p.row) (hc : 0 ≤ p.col) :
    ((doMonsterAttack g maxRow maxCol p).2 = true ↔
      (doMonsterAttack g maxRow maxCol p).1 p.row p.col = TILE_MONSTER) ∧
    (g p.row p.col = TILE_PLAYER → 1 ≤ p.col →
      (∀ x y : Int, ¬(x = p.row ∧ y = p.col - 1) → g x y ≠ TILE_MONSTER) →
      g p.row (p.col - 1) = TILE_MONSTER →
      (doMonsterAttack g maxRow maxCol p).1 p.row (p.col - 1) = TILE_OPEN) ∧
    (g p.row p.col = TILE_PLAYER → p.col + 1 < maxCol →
      (∀ x y : Int, ¬(x = p.row ∧ y = p.col + 1) → g x y ≠ TILE_MONSTER) →
      g p.row (p.col + 1) = TILE_MONSTER →
      (doMonsterAttack g maxRow maxCol p).1 p.row (p.col + 1) = TILE_OPEN) ∧
    (g p.row p.col = TILE_PLAYER → 1 ≤ p.row →
      (∀ x y : Int, ¬(x = p.row - 1 ∧ y = p.col) → g x y ≠ TILE_MONSTER) →
      g (p.row - 1) p.col = TILE_MONSTER →
      (doMonsterAttack g maxRow maxCol p).1 (p.row - 1) p.col = TILE_OPEN) ∧
    (g p.row p.col = TILE_PLAYER → p.row + 1 < maxRow →
      (∀ x y : Int, ¬(x = p.row + 1 ∧ y = p.col) → g x y ≠ TILE_MONSTER) →
      g (p.row + 1) p.col = TILE_MONSTER →
      (doMonsterAttack g maxRow maxCol p).1 (p.row + 1) p.col = TILE_OPEN) := by
  refine ⟨?_, ?_, ?_, ?_, ?_⟩
  · show (if attackGrid g maxRow maxCol p p.row p.col = TILE_MONSTER
        then true else false) = true ↔
      attackGrid g maxRow maxCol p p.row p.col = TILE_MONSTER
    by_cases hcap : attackGrid g maxRow maxCol p p.row p.col = TILE_MONSTER
    · rw [if_pos hcap]; exact ⟨fun _ => hcap, fun _ => rfl⟩
    · rw [if_neg hcap]; exact ⟨fun habs => absurd habs (by decide), fun habs => absurd habs hcap⟩
  · intro hpl hc1 honly hm
    rw [doMonsterAttack_fst]
    exact attack_ray1_vacated g maxRow maxCol p hr hc1 hpl honly hm
  · intro hpl hcM honly hm
    rw [doMonsterAttack_fst]
    exact attack_ray2_vacated g maxRow maxCol p hr hc hcM hpl honly hm
  · intro hpl hr1 honly hm
    rw [doMonsterAttack_fst]
    exact attack_ray3_vacated g maxRow maxCol p hr1 hc hpl honly hm
  · intro hpl hrM honly hm
    rw [doMonsterAttack_fst]
    exact attack_ray4_vacated g maxRow maxCol p hr hc hrM hpl honly hm

theorem doMonsterAttack_capture_witness :
    (doMonsterAttack gridMonsterAdjacent 1 2 ⟨0, 1, 0⟩).2 = true ∧
    (doMonsterAttack gridMonsterAdjacent 1 2 ⟨0, 1, 0⟩).1 0 (1 - 1) = TILE_OPEN := by
  have h := doMonsterAttack_capture gridMonsterAdjacent 1 2 ⟨0, 1, 0⟩
    (by decide) (by decide)
  have honly : ∀ x y : Int, ¬(x = (0 : Int) ∧ y = (1 : Int) - 1) →
      gridMonsterAdjacent x y ≠ TILE_MONSTER := by
    intro x y hne habs
    simp only [gridMonsterAdjacent] at habs
    split_ifs at habs with h1 h2
    · exact hne ⟨h1.1, by omega⟩
    · exact absurd habs (by decide)
    · exact absurd habs (by decide)
  exact ⟨h.1.2 (by decide), h.2.1 (by decide) (by decide) honly (by decide)⟩
